import Mathlib

/-!
A verification development for the `Cluster_Users` dashboard backend
(`backend/main.py` and `backend/db.py`).

The Python source is shallowly embedded: pure helper functions become Lean
functions over `List Char` / `String`, SQL result rows become explicit data
passed to the endpoint functions, and fallible code returns `Except`/`Option`.
Machine details that matter are modelled explicitly:

* `datetime.strptime(s, "%Y-%m-%d")` is modelled after CPython `_strptime.py`,
  whose directive patterns are `%Y ~ \d\d\d\d`, `%m ~ 1[0-2]|0[1-9]|[1-9]`
  and `%d ~ 3[01]|[12]\d|0[1-9]|[1-9]` (month and day accept one or two
  digits), followed by the `datetime.date` range validation.
* `str.strip()` is modelled over the Unicode whitespace code points that
  CPython strips; `str.strip("'")` drops all leading and trailing apostrophes.
* Python `list.sort(key=...)` is a stable sort; for a total preorder a stable
  sort is unique, so it is embedded as `List.insertionSort` (stable) on the
  same key.
* The MySQL `REGEXP "^'?\d{4}-\d{2}-\d{2} - \d{4}-\d{2}-\d{2}$"` filter of
  `_get_week_columns` is modelled as the Boolean matcher `mysqlWeekRegexp`.
-/

/-- A calendar date as produced by `datetime.strptime(s, "%Y-%m-%d").date()`. -/
structure PyDate where
  year : Nat
  month : Nat
  day : Nat
  deriving DecidableEq, Repr

/-- Strict comparison of `datetime.date` values: lexicographic on
(year, month, day), which is exactly how Python compares dates. -/
def pyDateLt (a b : PyDate) : Prop :=
  a.year < b.year ∨ (a.year = b.year ∧
    (a.month < b.month ∨ (a.month = b.month ∧ a.day < b.day)))

/-- Non-strict comparison of `datetime.date` values (lexicographic). -/
def pyDateLe (a b : PyDate) : Prop :=
  a.year < b.year ∨ (a.year = b.year ∧
    (a.month < b.month ∨ (a.month = b.month ∧ a.day ≤ b.day)))

instance : DecidableRel pyDateLt := fun a b => by
  unfold pyDateLt; infer_instance

instance : DecidableRel pyDateLe := fun a b => by
  unfold pyDateLe; infer_instance

/-- ASCII decimal digit test (`0`..`9`). -/
def isDigitChar (c : Char) : Bool := 48 ≤ c.toNat && c.toNat ≤ 57

/-- Numeric value of a decimal digit character. -/
def dval (c : Char) : Nat := c.toNat - 48

/-- The decimal digit character for `k < 10`. -/
def digitChar (k : Nat) : Char := Char.ofNat (48 + k)

/-- The apostrophe character `'`, written via its code point. -/
def apostropheChar : Char := Char.ofNat 39

/-- The Unicode code points stripped by CPython `str.strip()`. -/
def isPySpace (c : Char) : Bool :=
  ([9, 10, 11, 12, 13, 28, 29, 30, 31, 32, 133, 160, 5760,
    8192, 8193, 8194, 8195, 8196, 8197, 8198, 8199, 8200, 8201, 8202,
    8232, 8233, 8239, 8287, 12288] : List Nat).contains c.toNat

/-- Drop the trailing characters satisfying `p` (helper for `str.strip`). -/
def pyDropTrailing (p : Char → Bool) (l : List Char) : List Char :=
  ((l.reverse).dropWhile p).reverse

/-- Python `str.strip(chars)`: drop leading and trailing characters
satisfying `p`. -/
def pyStripChars (p : Char → Bool) (l : List Char) : List Char :=
  pyDropTrailing p (l.dropWhile p)

/-- `column_name.strip().strip("'")` from `_parse_week_column`. -/
def pyCleanWeekName (l : List Char) : List Char :=
  pyStripChars (fun c => c == apostropheChar) (pyStripChars isPySpace l)

/-- Python `s.split(" - ")`: split on every (leftmost, non-overlapping)
occurrence of the three-character separator, keeping empty parts. -/
def splitDash : List Char → List (List Char)
  | [] => [[]]
  | ' ' :: '-' :: ' ' :: rest => [] :: splitDash rest
  | c :: rest =>
    match splitDash rest with
    | [] => [[c]]
    | p :: ps => (c :: p) :: ps

/-- The `%Y` directive of `strptime`: exactly four decimal digits. -/
def parseYear4 : List Char → Option (Nat × List Char)
  | a :: b :: c :: d :: rest =>
    if isDigitChar a && isDigitChar b && isDigitChar c && isDigitChar d then
      some (1000 * dval a + 100 * dval b + 10 * dval c + dval d, rest)
    else none
  | _ => none

/-- The `%m` directive of `strptime`, pattern `1[0-2]|0[1-9]|[1-9]`
(one or two digits, value 1..12). -/
def parseMonth12 : List Char → Option (Nat × List Char)
  | c1 :: c2 :: rest =>
    if c1 == '1' && (isDigitChar c2 && dval c2 ≤ 2) then
      some (10 + dval c2, rest)
    else if c1 == '0' && (isDigitChar c2 && 1 ≤ dval c2) then
      some (dval c2, rest)
    else if isDigitChar c1 && 1 ≤ dval c1 then
      some (dval c1, c2 :: rest)
    else none
  | [c1] => if isDigitChar c1 && 1 ≤ dval c1 then some (dval c1, []) else none
  | [] => none

/-- The `%d` directive of `strptime`, pattern `3[01]|[12]\d|0[1-9]|[1-9]`
(one or two digits, value 1..31). -/
def parseDay31 : List Char → Option (Nat × List Char)
  | c1 :: c2 :: rest =>
    if c1 == '3' && (isDigitChar c2 && dval c2 ≤ 1) then
      some (30 + dval c2, rest)
    else if (c1 == '1' || c1 == '2') && isDigitChar c2 then
      some (10 * dval c1 + dval c2, rest)
    else if c1 == '0' && (isDigitChar c2 && 1 ≤ dval c2) then
      some (dval c2, rest)
    else if isDigitChar c1 && 1 ≤ dval c1 then
      some (dval c1, c2 :: rest)
    else none
  | [c1] => if isDigitChar c1 && 1 ≤ dval c1 then some (dval c1, []) else none
  | [] => none

/-- Gregorian leap-year rule used by `datetime.date`. -/
def isLeapYear (y : Nat) : Bool :=
  y % 4 == 0 && (y % 100 != 0 || y % 400 == 0)

/-- Days in a month, as validated by the `datetime.date` constructor. -/
def daysInMonth (y m : Nat) : Nat :=
  if m == 2 then (if isLeapYear y then 29 else 28)
  else if m == 4 || m == 6 || m == 9 || m == 11 then 30
  else 31

/-- The range checks of the `datetime.date` constructor. -/
def validDate (y m d : Nat) : Bool :=
  decide (1 ≤ y) && decide (y ≤ 9999) && decide (1 ≤ m) && decide (m ≤ 12) &&
    decide (1 ≤ d) && decide (d ≤ daysInMonth y m)

/-- `datetime.strptime(s, "%Y-%m-%d").date()`: the whole input must be
consumed (`_strptime` rejects trailing characters), and the matched numbers
must form a valid calendar date. -/
def strptimeYMD (l : List Char) : Option PyDate :=
  match parseYear4 l with
  | none => none
  | some (y, r1) =>
    match r1 with
    | '-' :: r2 =>
      match parseMonth12 r2 with
      | none => none
      | some (m, r3) =>
        match r3 with
        | '-' :: r4 =>
          match parseDay31 r4 with
          | none => none
          | some (d, r5) =>
            if r5.isEmpty && validDate y m d then some ⟨y, m, d⟩ else none
        | _ => none
    | _ => none

/-- `class WeekColumn(NamedTuple)` from `backend/main.py`. -/
structure WeekColumn where
  raw : String
  label : String
  start_date : PyDate
  end_date : PyDate
  deriving DecidableEq, Repr

/-- `_parse_week_column` from `backend/main.py`: strip whitespace and
apostrophes, split on `" - "`, require exactly two parts, parse both parts
with `strptime`; any failure yields `none` (the Python code catches
`ValueError` and returns `None`). -/
def _parse_week_column (column_name : String) : Option WeekColumn :=
  let cleaned := pyCleanWeekName column_name.data
  match splitDash cleaned with
  | [p1, p2] =>
    match strptimeYMD p1, strptimeYMD p2 with
    | some s, some e => some ⟨column_name, ⟨cleaned⟩, s, e⟩
    | _, _ => none
  | _ => none

/-- Ten characters of shape `\d{4}-\d{2}-\d{2}`. -/
def isShape10 (l : List Char) : Bool :=
  match l with
  | [a, b, c, d, x, e, f, y, g, h] =>
    isDigitChar a && isDigitChar b && isDigitChar c && isDigitChar d &&
      x == '-' && isDigitChar e && isDigitChar f && y == '-' &&
      isDigitChar g && isDigitChar h
  | _ => false

/-- Body of the week-column regular expression:
`\d{4}-\d{2}-\d{2} - \d{4}-\d{2}-\d{2}` matched against the whole string. -/
def weekRegexpBody (l : List Char) : Bool :=
  isShape10 (l.take 10) && ((l.drop 10).take 3 == [' ', '-', ' ']) &&
    isShape10 ((l.drop 10).drop 3)

/-- The SQL filter
`column_name REGEXP "^'?\d{4}-\d{2}-\d{2} - \d{4}-\d{2}-\d{2}$"` of
`_get_week_columns`: an optional leading apostrophe followed by the body. -/
def mysqlWeekRegexp (l : List Char) : Bool :=
  (match l with
   | q :: rest => q == apostropheChar && weekRegexpBody rest
   | [] => false) || weekRegexpBody l

/-- Ordering used by `week_columns.sort(key=lambda col: col.start_date)`. -/
def weekColLe (a b : WeekColumn) : Prop :=
  pyDateLe a.start_date b.start_date

instance : DecidableRel weekColLe := fun a b => by
  unfold weekColLe pyDateLe; infer_instance

instance : IsTotal WeekColumn weekColLe :=
  ⟨by intro a b; unfold weekColLe pyDateLe; omega⟩

instance : IsTrans WeekColumn weekColLe :=
  ⟨by intro a b c; unfold weekColLe pyDateLe; omega⟩

/-- `_get_week_columns` from `backend/main.py`, as a function of the
introspected column names of the table (in ordinal position order, which is
the `ORDER BY` of the introspection query): keep the names matching the SQL
regular expression, parse them with `_parse_week_column`, discard failures,
and sort (stably) ascending by start date.  Python `list.sort` is stable and
a stable sort with respect to a total preorder is unique, so the stable
`List.insertionSort` computes the same list. -/
def _get_week_columns (column_names : List String) : List WeekColumn :=
  List.insertionSort weekColLe
    ((column_names.filter (fun n => mysqlWeekRegexp n.data)).filterMap
      _parse_week_column)

/-- Zero-padded two-digit rendering (for `MM` and `DD`). -/
def pad2 (n : Nat) : List Char := [digitChar (n / 10 % 10), digitChar (n % 10)]

/-- Zero-padded four-digit rendering (for `YYYY`). -/
def pad4 (n : Nat) : List Char :=
  [digitChar (n / 1000 % 10), digitChar (n / 100 % 10),
    digitChar (n / 10 % 10), digitChar (n % 10)]

/-- Render a date in the fixed `YYYY-MM-DD` format. -/
def fmtYMD (d : PyDate) : List Char :=
  pad4 d.year ++ ('-' :: (pad2 d.month ++ ('-' :: pad2 d.day)))

/-- Python `str.strip()` on a `String`. -/
def pyStrip (s : String) : String := ⟨pyStripChars isPySpace s.data⟩

/-- The character class `[A-Za-z0-9_ ()-]` of `_TABLE_NAME_PATTERN`
in `backend/db.py`. -/
def isTableNameChar (c : Char) : Bool :=
  (65 ≤ c.toNat && c.toNat ≤ 90) || (97 ≤ c.toNat && c.toNat ≤ 122) ||
    (48 ≤ c.toNat && c.toNat ≤ 57) || c == '_' || c == ' ' || c == '(' ||
    c == ')' || c == '-'

/-- `ensure_safe_table_name` from `backend/db.py`.  A raised `ValueError`
is embedded as `Except.error` carrying the exception message.  After
`str.strip()` the candidate has no trailing newline, so `re.match` against
`^[A-Za-z0-9_ ()-]+$` succeeds exactly when the (non-empty) candidate
consists only of characters of the class. -/
def ensure_safe_table_name (table_name : String) : Except String String :=
  if table_name.data.isEmpty then .error "Table name cannot be empty."
  else
    let candidate := pyStrip table_name
    if candidate.data.isEmpty then .error "Table name cannot be empty."
    else if candidate.data.all isTableNameChar then .ok candidate
    else
      .error
        "Table name may only contain letters, numbers, spaces, underscores, parentheses, or hyphens."

/-- `get_default_table_name` from `backend/db.py`; `envTable` stands for
`os.getenv("MYSQL_TABLE", "user_cluster")`. -/
def get_default_table_name (envTable : String) : Except String String :=
  ensure_safe_table_name envTable

/-- `_resolve_table_name` from `backend/main.py`: Python truthiness of the
optional query parameter (absent or empty string falls back to the default
table name). -/
def _resolve_table_name (table_name : Option String) (envTable : String) :
    Except String String :=
  match table_name with
  | some n => if n.data.isEmpty then get_default_table_name envTable
              else ensure_safe_table_name n
  | none => get_default_table_name envTable

/-- The `detail` payload of an `HTTPException`; the interpolated message of
`_resolve_column_name` is kept structured so that the field and table names
it carries are visible. -/
inductive ErrorDetail where
  | msg (s : String)
  | columnNotFound (column_key table_name : String)
  deriving DecidableEq, Repr

/-- An error escaping an endpoint: either an `HTTPException(status, detail)`
or an uncaught Python exception (surfaced by FastAPI as a 500). -/
inductive ApiError where
  | http (status : Nat) (detail : ErrorDetail)
  | exception (s : String)
  deriving DecidableEq, Repr

/-- `COLUMN_CANDIDATES` from `backend/main.py` (a dict with unique keys,
embedded as an association list in declaration order). -/
def COLUMN_CANDIDATES : List (String × List String) :=
  [("Segment", ["Segment", "segment"]),
   ("Name", ["Name", "name"]),
   ("Email", ["Email", "email"]),
   ("Phone", ["Phone", "phone"]),
   ("User ID", ["User ID", "user_id"]),
   ("Registered Date", ["Registered Date", "registered_date"]),
   ("Cash Balance", ["Cash Balance", "cash_balance"]),
   ("Total Contests Joined", ["Total Contests Joined", "total_contests_joined"]),
   ("IPL Contests", ["IPL Contests", "ipl_contests"]),
   ("Highest IPL Score", ["Highest IPL Score", "highest_ipl_score"]),
   ("New Users", ["New Users", "new_users"]),
   ("Inactive", ["Inactive", "inactive"]),
   ("Core Gamer", ["Core Gamer", "core_gamer"]),
   ("Starters", ["Starters", "starters"]),
   ("Regular", ["Regular", "regular"]),
   ("Casual", ["Casual", "casual"]),
   ("Previously Active (last 3 months)",
    ["Previously Active (last 3 months)", "prev_active_last3",
     "previously_active_last_3_months"]),
   ("Previously Active (before 3 months)",
    ["Previously Active (before 3 months)", "prev_active_before3",
     "previously_active_before_3_months"])]

/-- `COLUMN_CANDIDATES.get(column_key, [column_key])`. -/
def candidatesFor (column_key : String) : List String :=
  (COLUMN_CANDIDATES.lookup column_key).getD [column_key]

/-- `_resolve_column_name` from `backend/main.py`: return the first
candidate present in the column set; if none is present, raise
`HTTPException(500, "Column ... not found in table ...")` when `required`,
otherwise return `None`. -/
def _resolve_column_name (column_key : String) (columns : List String)
    (table_name : String) (required : Bool) : Except ApiError (Option String) :=
  match (candidatesFor column_key).find? (fun c => columns.contains c) with
  | some c => .ok (some c)
  | none =>
    if required then
      .error (.http 500 (.columnNotFound column_key table_name))
    else .ok none

/-- Python slice `lst[-n:]` (for `n = 0` it is `lst[0:]`, the whole list). -/
def pySliceLastN (n : Nat) (l : List α) : List α :=
  if n = 0 then l else l.drop (l.length - n)

/-- The week filter of `segment_trends`:
`(start is None or column.start_date >= start) and
 (end is None or column.end_date <= end)`. -/
def trendWeekKeep (start stop : Option PyDate) (column : WeekColumn) : Bool :=
  (match start with
   | none => true
   | some s => decide (pyDateLe s column.start_date)) &&
  (match stop with
   | none => true
   | some e => decide (pyDateLe column.end_date e))

/-- Lines 469-478 of `backend/main.py` (`segment_trends`): filter the
catalog by the optional date range; fall back to `week_columns[-weeks:]`
when the filtered list is empty; truncate to `filtered_weeks[-weeks:]` when
it has more than `weeks` entries. -/
def select_trend_weeks (week_columns : List WeekColumn)
    (start stop : Option PyDate) (weeks : Nat) : List WeekColumn :=
  let filtered_weeks := week_columns.filter (trendWeekKeep start stop)
  if filtered_weeks.isEmpty then pySliceLastN weeks week_columns
  else if weeks < filtered_weeks.length then pySliceLastN weeks filtered_weeks
  else filtered_weeks

/-- The most recent `n` entries of a chronologically ascending catalog:
the last `n` entries (written from the spec side, via `reverse`/`take`). -/
def mostRecent (n : Nat) (l : List α) : List α := (l.reverse.take n).reverse

/-- The week-selection policy exactly as the specification words it
(spec-side definition, to be compared with `select_trend_weeks`). -/
def trend_week_selection_spec (catalog : List WeekColumn)
    (start stop : Option PyDate) (weeks : Nat) : List WeekColumn :=
  let filtered := catalog.filter (trendWeekKeep start stop)
  if filtered = [] then mostRecent weeks catalog
  else if filtered.length > weeks then mostRecent weeks filtered
  else filtered

/-- `CATEGORY_DEFINITIONS` from `backend/main.py`. -/
def CATEGORY_DEFINITIONS : List (String × List String) :=
  [("new_users", ["New Users"]),
   ("inactive", ["Inactive"]),
   ("core_gamers", ["Core Gamer"]),
   ("starters", ["Starters"]),
   ("regulars", ["Regular"]),
   ("casuals", ["Casual"]),
   ("previously_active_last_3m", ["Previously Active (last 3 months)"]),
   ("previously_active_before_3m", ["Previously Active (before 3 months)"])]

/-- `CATEGORY_ALIASES = [alias for alias, _ in CATEGORY_DEFINITIONS]`. -/
def CATEGORY_ALIASES : List String := CATEGORY_DEFINITIONS.map Prod.fst

/-- `SEGMENT_LABEL_TO_ALIAS = {labels[0]: alias for alias, labels in
CATEGORY_DEFINITIONS}` (every label list is non-empty). -/
def SEGMENT_LABEL_TO_ALIAS : List (String × String) :=
  CATEGORY_DEFINITIONS.filterMap
    (fun p => match p.2 with
      | l :: _ => some (l, p.1)
      | [] => none)

/-- The canonical raw labels (the keys of `SEGMENT_LABEL_TO_ALIAS`). -/
def canonicalLabels : List String := SEGMENT_LABEL_TO_ALIAS.map Prod.fst

/-- The category mapping `SEGMENT_LABEL_TO_ALIAS.get(label, label)` applied
by `segment_stats` to each raw segment label (the spec calls it
`toCategory`). -/
def toCategory (label : String) : String :=
  (SEGMENT_LABEL_TO_ALIAS.lookup label).getD label

/-- `int(v or 0)` on an integer SQL count. -/
def pyOrIntVal (v : Int) : Int := if v = 0 then 0 else v

/-- One `segment` entry of the segment-breakdown response; the per-category
`counts` dict is embedded as a function on the category keys. -/
structure SegmentCounts where
  segment : String
  counts : String → Int

/-- `SegmentStatsResponse` from `backend/main.py`; the `totals` dict is
embedded as a function on the category keys. -/
structure SegmentStatsResponse where
  categories : List String
  segments : List SegmentCounts
  totals : String → Int
  total_users : Int

/-- The reshaping loop of `segment_stats` (lines 315-331 of
`backend/main.py`): for each grouped row, map its label through
`SEGMENT_LABEL_TO_ALIAS.get(label, label)`; when the result is a key of the
per-category `counts` dict (i.e. one of `CATEGORY_ALIASES`), record the
row count there and add it to the running totals. -/
def segment_stats_step (acc : List SegmentCounts × (String → Int))
    (row : String × Int) : List SegmentCounts × (String → Int) :=
  let aliasKey := toCategory row.1
  if CATEGORY_ALIASES.contains aliasKey then
    let c := pyOrIntVal row.2
    (acc.1 ++ [⟨row.1, fun a => if a = aliasKey then c else 0⟩],
     fun a => if a = aliasKey then acc.2 a + c else acc.2 a)
  else
    (acc.1 ++ [⟨row.1, fun _ => 0⟩], acc.2)

/-- The response assembly of `segment_stats`: fold the grouped rows through
`segment_stats_step`, starting from the all-zero totals dict. -/
def segment_stats_core (rows : List (String × Int)) (total_users : Int) :
    SegmentStatsResponse :=
  let folded := rows.foldl segment_stats_step ([], fun _ => 0)
  ⟨CATEGORY_ALIASES, folded.1, folded.2, total_users⟩

/-- The `GROUP BY` result of the `segment_stats` query for a table whose
per-row segment labels are `table`: one row per distinct label with its
occurrence count.  (The `ORDER BY` of the query is irrelevant to the totals
and is not modelled.) -/
def sqlGroupCounts (table : List String) : List (String × Int) :=
  table.dedup.map (fun l => (l, (table.count l : Int)))

/-- Sum of the per-category totals of a breakdown (`sum(totals.values())`
over the 8 category keys). -/
def sumTotals (t : String → Int) : Int := (CATEGORY_ALIASES.map t).sum

/-- Users in pass-through segments under the claim's reading: rows whose raw
label is not one of the 8 canonical labels (so the mapping passes it through
unchanged). -/
def passthrough_user_count (rows : List (String × Int)) : Int :=
  ((rows.filter (fun r => !(canonicalLabels.contains r.1))).map Prod.snd).sum

/-- Users in segments that contribute to no category total: rows whose label,
after the mapping, is not one of the 8 category keys. -/
def uncategorized_user_count (rows : List (String × Int)) : Int :=
  ((rows.filter
      (fun r => !(CATEGORY_ALIASES.contains (toCategory r.1)))).map
    Prod.snd).sum

/-- Users in segments that land in one of the 8 category totals. -/
def categorized_user_count (rows : List (String × Int)) : Int :=
  ((rows.filter
      (fun r => CATEGORY_ALIASES.contains (toCategory r.1))).map
    Prod.snd).sum

/-- A value returned by the store for one column of one row. -/
inductive SqlValue where
  | vNull
  | vInt (i : Int)
  | vStr (s : String)
  deriving DecidableEq, Repr

/-- Python truthiness of a store value (`None`, `0` and `""` are falsy). -/
def pyTruthy (v : SqlValue) : Bool :=
  match v with
  | .vNull => false
  | .vInt i => i != 0
  | .vStr s => !s.isEmpty

/-- `value or 0` where `value` is the result of a dict lookup. -/
def pyOrZero (v : Option SqlValue) : SqlValue :=
  match v with
  | none => .vInt 0
  | some w => if pyTruthy w then w else .vInt 0

/-- Digit-string accumulator for the model of Python `int(str)`. -/
def parseDigitsAux (acc : Nat) : List Char → Option Nat
  | [] => some acc
  | c :: rest =>
    if isDigitChar c then parseDigitsAux (10 * acc + dval c) rest else none

/-- A non-empty run of decimal digits and its value. -/
def parseDigits (l : List Char) : Option Nat :=
  if l.isEmpty then none else parseDigitsAux 0 l

/-- Python `int(s)` on a string: surrounding whitespace, an optional sign and
a non-empty digit run; anything else raises `ValueError` (`none`).
(CPython additionally accepts single underscores between digits; such inputs
do not occur in the data this backend coerces, and are modelled as failures.) -/
def pyIntOfString (s : String) : Option Int :=
  match pyStripChars isPySpace s.data with
  | '-' :: rest => (parseDigits rest).map (fun n => -(n : Int))
  | '+' :: rest => (parseDigits rest).map (fun n => (n : Int))
  | rest => (parseDigits rest).map (fun n => (n : Int))

/-- Python `int(v)` on a store value; `none` models a raised exception
(`int(None)` is a `TypeError`, a malformed string a `ValueError`). -/
def pyInt (v : SqlValue) : Option Int :=
  match v with
  | .vInt i => some i
  | .vStr s => pyIntOfString s
  | .vNull => none

/-- `int(value or 0)` on a dict lookup result, in the endpoint error monad:
a raised conversion error escapes the endpoint as a 500. -/
def pyIntOrZero (v : Option SqlValue) : Except ApiError Int :=
  match pyInt (pyOrZero v) with
  | some i => .ok i
  | none => .error (.exception "int() conversion failed")

/-- `TimelinePoint` from `backend/main.py` (`contests` is the count). -/
structure TimelinePoint where
  label : String
  start_date : PyDate
  end_date : PyDate
  contests : Int
  deriving DecidableEq, Repr

/-- The week-window filter of `user_timeline`: skip a column when
`start and column.start_date < start`, or when
`end and column.end_date > end`. -/
def timeline_keeps (start stop : Option PyDate) (column : WeekColumn) : Bool :=
  (match start with
   | none => true
   | some s => !(decide (pyDateLt column.start_date s))) &&
  (match stop with
   | none => true
   | some e => !(decide (pyDateLt e column.end_date)))

/-- Python `row.get(key)` on a row mapping. -/
def assocGet (row : List (String × SqlValue)) (k : String) : Option SqlValue :=
  row.lookup k

/-- The per-point coercion of `user_timeline`:
`int(raw_value) if raw_value not in (None, "") else 0` (a missing key, SQL
`NULL` or the empty string count as zero; other values go through `int`,
whose failure is a raised exception). -/
def timeline_contests (raw_value : Option SqlValue) : Except ApiError Int :=
  match raw_value with
  | none => .ok 0
  | some .vNull => .ok 0
  | some (.vInt i) => .ok i
  | some (.vStr s) =>
    if s = "" then .ok 0
    else
      match pyIntOfString s with
      | some i => .ok i
      | none => .error (.exception "int() conversion failed")

/-- The value `user_timeline` stores in each point, as the specification
words it: the stored value coerced to an integer, with null and
empty-string values treated as zero (spec-side definition). -/
def timeline_count_spec (raw_value : Option SqlValue) : Int :=
  match raw_value with
  | none => 0
  | some .vNull => 0
  | some (.vInt i) => i
  | some (.vStr s) => if s = "" then 0 else (pyIntOfString s).getD 0

/-- Effectful loop over a list in the endpoint error monad (the embedding
of a Python `for` loop that builds a list and may raise): structurally
recursive so that proofs can proceed by induction. -/
def exceptMapM (f : α → Except ApiError β) : List α → Except ApiError (List β)
  | [] => .ok []
  | x :: xs =>
    match f x with
    | .error e => .error e
    | .ok y =>
      match exceptMapM f xs with
      | .error e => .error e
      | .ok ys => .ok (y :: ys)

/-- The timeline loop of `user_timeline` (lines 591-606 of
`backend/main.py`): one point per week column inside the optional
`[start, end]` bound, with the row value coerced by `timeline_contests`. -/
def timeline_points (week_columns : List WeekColumn)
    (start stop : Option PyDate) (row : List (String × SqlValue)) :
    Except ApiError (List TimelinePoint) :=
  exceptMapM
    (fun column =>
      match timeline_contests (assocGet row column.raw) with
      | .error e => .error e
      | .ok contests =>
        .ok ⟨column.label, column.start_date, column.end_date, contests⟩)
    (week_columns.filter (timeline_keeps start stop))

/-- The single aggregate row of the `segment_insights` metrics query
(`COUNT` and the five averages; SQL `NULL` is `none`). -/
structure MetricsRow where
  user_count : Option Int
  avg_cash_balance : Option Rat
  avg_total_contests : Option Rat
  avg_ipl_contests : Option Rat
  avg_highest_ipl_score : Option Rat
  avg_days_since_registration : Option Rat
  deriving DecidableEq, Repr

/-- One row of the grouped `segment_trends` query: the segment label and the
per-week-column sums keyed by raw column name. -/
structure TrendRow where
  segment : String
  values : List (String × SqlValue)
  deriving DecidableEq, Repr

/-- The single row of the `user_timeline` lookup query. -/
structure TimelineRow where
  user_id : Int
  name : Option String
  segment : Option String
  values : List (String × SqlValue)
  deriving DecidableEq, Repr

/-- The store's answers to the compiled queries of one request.  The
endpoint functions are parameterized by this record; an endpoint whose
result is the same for every `Db` value has not consulted the store. -/
structure Db where
  metricsRow : Option MetricsRow
  activeUsers : Int
  activityRow : Option (List (String × SqlValue))
  trendRows : List TrendRow
  timelineRow : Option TimelineRow
  deriving DecidableEq, Repr

/-- `SegmentInsightMetrics` from `backend/main.py`; the Python floats are
embedded as rationals (the SQL decimals they are built from are exact). -/
structure SegmentInsightMetrics where
  user_count : Int
  avg_cash_balance : Rat
  avg_total_contests : Rat
  avg_ipl_contests : Rat
  avg_highest_ipl_score : Rat
  avg_days_since_registration : Rat
  recent_active_share : Rat
  deriving DecidableEq, Repr

/-- `SegmentInsightResponse` from `backend/main.py`. -/
structure SegmentInsightResponse where
  segment : String
  metrics : SegmentInsightMetrics
  recent_activity : List TimelinePoint
  deriving DecidableEq, Repr

/-- `SegmentTrendPoint` from `backend/main.py`; the `totals` dict is kept as
an association list in insertion order. -/
structure SegmentTrendPoint where
  label : String
  start_date : PyDate
  end_date : PyDate
  totals : List (String × Int)
  deriving DecidableEq, Repr

/-- `SegmentTrendResponse` from `backend/main.py`. -/
structure SegmentTrendResponse where
  segments : List String
  points : List SegmentTrendPoint
  deriving DecidableEq, Repr

/-- `UserTimelineResponse` from `backend/main.py`. -/
structure UserTimelineResponse where
  user_id : Int
  name : Option String
  segment : Option String
  points : List TimelinePoint
  deriving DecidableEq, Repr

/-- `float(x or 0)` on a nullable SQL decimal. -/
def pyOrRat (v : Option Rat) : Rat :=
  match v with
  | none => 0
  | some r => if r = 0 then 0 else r

/-- `int(x or 0)` on the nullable aggregate count. -/
def pyOrInt (v : Option Int) : Int :=
  match v with
  | none => 0
  | some i => if i = 0 then 0 else i

/-- A `required=False` column resolution never raises; `segment_insights`
binds its result directly (see `_resolve_column_name_not_required`). -/
def _resolve_optional_column (column_key : String) (columns : List String)
    (table_name : String) : Option String :=
  match _resolve_column_name column_key columns table_name false with
  | .ok v => v
  | .error _ => none

/-- `segment_insights` from `backend/main.py`, as a function of the request
parameters, the introspected `table_columns` of the resolved table, and the
store's query answers `db`.  (`weeks` is validated by FastAPI to `1..24`;
the five `required=False` resolutions never raise, see
`_resolve_column_name_not_required`.) -/
def segment_insights (segment : String) (table_name : Option String)
    (weeks : Nat) (envTable : String) (table_columns : List String)
    (db : Db) : Except ApiError SegmentInsightResponse :=
  match _resolve_table_name table_name envTable with
  | .error e => .error (.exception e)
  | .ok safe_table =>
    match _resolve_column_name "Segment" table_columns safe_table true with
    | .error e => .error e
    | .ok _segment_col =>
      let week_columns := _get_week_columns table_columns
      if week_columns.isEmpty then
        .error (.http 404 (.msg "No weekly columns configured for this table."))
      else
        let recent_weeks := pySliceLastN weeks week_columns
        let _cash_balance_col :=
          _resolve_optional_column "Cash Balance" table_columns safe_table
        let _total_contests_col :=
          _resolve_optional_column "Total Contests Joined" table_columns
            safe_table
        let _ipl_contests_col :=
          _resolve_optional_column "IPL Contests" table_columns safe_table
        let _highest_ipl_col :=
          _resolve_optional_column "Highest IPL Score" table_columns safe_table
        let _registered_date_col :=
          _resolve_optional_column "Registered Date" table_columns safe_table
        match db.metricsRow with
        | none => .error (.http 404 (.msg "Segment not found or has no users."))
        | some mr =>
          if pyOrInt mr.user_count = 0 then
            .error (.http 404 (.msg "Segment not found or has no users."))
          else
            let recent_active_cols :=
              if recent_weeks.length ≥ 4 then pySliceLastN 4 recent_weeks
              else recent_weeks
            let active_users : Int :=
              if recent_active_cols.isEmpty then 0 else db.activeUsers
            let recent_activity_row :=
              if recent_weeks.isEmpty then none else db.activityRow
            let metrics : SegmentInsightMetrics :=
              { user_count := pyOrInt mr.user_count,
                avg_cash_balance := pyOrRat mr.avg_cash_balance,
                avg_total_contests := pyOrRat mr.avg_total_contests,
                avg_ipl_contests := pyOrRat mr.avg_ipl_contests,
                avg_highest_ipl_score := pyOrRat mr.avg_highest_ipl_score,
                avg_days_since_registration :=
                  pyOrRat mr.avg_days_since_registration,
                recent_active_share :=
                  match mr.user_count with
                  | none => 0
                  | some uc =>
                    if uc = 0 then 0 else (active_users : Rat) / (uc : Rat) }
            let data := recent_activity_row.getD []
            match exceptMapM (fun col =>
                match pyIntOrZero (assocGet data col.raw) with
                | .error e => .error e
                | .ok contests =>
                  .ok (⟨col.label, col.start_date, col.end_date, contests⟩ :
                    TimelinePoint)) recent_weeks with
            | .error e => .error e
            | .ok recent_activity => .ok ⟨segment, metrics, recent_activity⟩

/-- `segment_trends` from `backend/main.py`.  The `segments` filter shapes
the SQL `IN` clause whose outcome is `db.trendRows`; `weeks` is validated by
FastAPI to `1..52`. -/
def segment_trends (segments : Option (List String))
    (table_name : Option String) (start stop : Option PyDate) (weeks : Nat)
    (envTable : String) (table_columns : List String) (db : Db) :
    Except ApiError SegmentTrendResponse :=
  match _resolve_table_name table_name envTable with
  | .error e => .error (.exception e)
  | .ok safe_table =>
    match _resolve_column_name "Segment" table_columns safe_table true with
    | .error e => .error e
    | .ok _segment_col =>
      let week_columns := _get_week_columns table_columns
      if week_columns.isEmpty then
        .error (.http 404 (.msg "No weekly columns configured for this table."))
      else
        let filtered_weeks := select_trend_weeks week_columns start stop weeks
        let rows := db.trendRows
        if rows.isEmpty then
          .error (.http 404 (.msg "No segments matched the provided filters."))
        else
          let response_segments := rows.map (fun r => r.segment)
          match exceptMapM (fun column =>
              match exceptMapM (fun row =>
                  match pyIntOrZero (assocGet row.values column.raw) with
                  | .error e => .error e
                  | .ok n => .ok (row.segment, n)) rows with
              | .error e => .error e
              | .ok totals =>
                .ok (⟨column.label, column.start_date, column.end_date,
                  totals⟩ : SegmentTrendPoint)) filtered_weeks with
          | .error e => .error e
          | .ok points => .ok ⟨response_segments, points⟩

/-- The `start`/`end` precondition of `user_timeline`:
`if start and end and start > end`. -/
def user_timeline_guard (start stop : Option PyDate) : Bool :=
  match start, stop with
  | some s, some e => decide (pyDateLt e s)
  | _, _ => false

/-- Everything `user_timeline` does after its date-range guard. -/
def user_timeline_rest (table_name : Option String)
    (start stop : Option PyDate) (envTable : String)
    (table_columns : List String) (db : Db) :
    Except ApiError UserTimelineResponse :=
  match _resolve_table_name table_name envTable with
  | .error e => .error (.exception e)
  | .ok safe_table =>
    match _resolve_column_name "User ID" table_columns safe_table true with
    | .error e => .error e
    | .ok _user_id_col =>
      match _resolve_column_name "Name" table_columns safe_table true with
      | .error e => .error e
      | .ok _name_col =>
        match _resolve_column_name "Segment" table_columns safe_table true with
        | .error e => .error e
        | .ok _segment_col =>
          let week_columns := _get_week_columns table_columns
          if week_columns.isEmpty then
            .error (.http 404
              (.msg "No weekly columns available in the selected table."))
          else
            match db.timelineRow with
            | none => .error (.http 404 (.msg "User not found."))
            | some row =>
              match timeline_points week_columns start stop row.values with
              | .error e => .error e
              | .ok points => .ok ⟨row.user_id, row.name, row.segment, points⟩

/-- `user_timeline` from `backend/main.py`: the date-range guard runs first;
everything else (table-name resolution, schema lookups, the store query) is
in `user_timeline_rest`.  (The path parameter `user_id` only feeds the SQL
bind parameter, whose outcome is `db.timelineRow`.) -/
def user_timeline (table_name : Option String) (start stop : Option PyDate)
    (envTable : String) (table_columns : List String) (db : Db) :
    Except ApiError UserTimelineResponse :=
  if user_timeline_guard start stop then
    .error (.http 400 (.msg "Start date must be before or equal to end date."))
  else user_timeline_rest table_name start stop envTable table_columns db

/-- A date in the fixed, zero-padded `YYYY-MM-DD` format, as the
specification words it (spec-side definition): the ten-character shape
`\d{4}-\d{2}-\d{2}` parsed as a valid calendar date. -/
def parseStrictYMD (l : List Char) : Option PyDate :=
  if isShape10 l then strptimeYMD l else none









/-! ### Helper lemmas -/

theorem pyDateLe_of_not_lt {a b : PyDate} (h : pyDateLe a b) : ¬ pyDateLt b a := by
  unfold pyDateLe at h
  unfold pyDateLt
  omega

theorem pySliceLastN_eq_mostRecent (n : Nat) (l : List α) (h : 1 ≤ n) :
    pySliceLastN n l = mostRecent n l := by
  unfold pySliceLastN mostRecent
  have hn : ¬ n = 0 := by omega
  rw [if_neg hn]
  have h2 := @List.reverse_take α l.reverse n
  simpa using h2.symm

/-! ### C10: the user-timeline date-range guard -/

/-- C10: for every user-timeline request supplying both a start and an end
date with start > end, the operation fails with HTTP 400 regardless of the
environment, the table schema and the store (so before any table-name
resolution, schema lookup or store query); when either bound is absent or
start <= end, the guard does not fire and the request proceeds to the rest
of the pipeline. -/
theorem user_timeline_date_guard (table_name : Option String)
    (start stop : Option PyDate) (envTable : String)
    (table_columns : List String) (db : Db) :
    (∀ s e, start = some s → stop = some e → pyDateLt e s →
      user_timeline table_name start stop envTable table_columns db =
        .error (.http 400
          (.msg "Start date must be before or equal to end date."))) ∧
    ((start = none ∨ stop = none ∨
        (∃ s e, start = some s ∧ stop = some e ∧ pyDateLe s e)) →
      user_timeline table_name start stop envTable table_columns db =
        user_timeline_rest table_name start stop envTable table_columns db) := by
  constructor
  · intro s e hs he hlt
    subst hs; subst he
    unfold user_timeline user_timeline_guard
    simp [hlt]
  · intro h
    have hg : user_timeline_guard start stop = false := by
      unfold user_timeline_guard
      rcases h with h | h | ⟨s, e, hs, he, hle⟩
      · subst h; rfl
      · subst h; cases start <;> rfl
      · subst hs; subst he
        simpa using pyDateLe_of_not_lt hle
    unfold user_timeline
    rw [hg]
    simp

/-- Witness for C10: a concrete inverted range is rejected with 400, and a
request with no bounds proceeds past the guard. -/
theorem user_timeline_date_guard_witness :
    user_timeline none (some ⟨2024, 2, 1⟩) (some ⟨2024, 1, 1⟩) "user_cluster"
        [] ⟨none, 0, none, [], none⟩ =
      .error (.http 400
        (.msg "Start date must be before or equal to end date.")) ∧
    user_timeline none none none "user_cluster" [] ⟨none, 0, none, [], none⟩ =
      user_timeline_rest none none none "user_cluster" []
        ⟨none, 0, none, [], none⟩ :=
  ⟨(user_timeline_date_guard none (some ⟨2024, 2, 1⟩) (some ⟨2024, 1, 1⟩)
      "user_cluster" [] ⟨none, 0, none, [], none⟩).1 ⟨2024, 2, 1⟩ ⟨2024, 1, 1⟩
      rfl rfl (by decide),
   (user_timeline_date_guard none none none "user_cluster" []
      ⟨none, 0, none, [], none⟩).2 (Or.inl rfl)⟩

/-! ### C9: table-identity validation -/

/-- C9: validation succeeds and returns the trimmed name exactly when the
trimmed name is non-empty and consists only of letters, digits, spaces,
underscores, hyphens and parentheses; otherwise it fails with a
`ValueError` (the embedded `Except.error`), a pure check performed before
any query is compiled or sent to the store. -/
theorem ensure_safe_table_name_spec (table_name : String) :
    (∀ t, ensure_safe_table_name table_name = .ok t ↔
      (t = pyStrip table_name ∧ (pyStrip table_name).data.isEmpty = false ∧
        (pyStrip table_name).data.all isTableNameChar = true)) ∧
    ((pyStrip table_name).data.isEmpty = true ∨
        (pyStrip table_name).data.all isTableNameChar = false →
      ∃ e, ensure_safe_table_name table_name = .error e) := by
  have hres : ensure_safe_table_name table_name =
      (if (pyStrip table_name).data.isEmpty = true then
        (.error "Table name cannot be empty." : Except String String)
       else if (pyStrip table_name).data.all isTableNameChar = true then
        .ok (pyStrip table_name)
       else
        .error
          "Table name may only contain letters, numbers, spaces, underscores, parentheses, or hyphens.") := by
    unfold ensure_safe_table_name
    by_cases h1 : table_name.data.isEmpty = true
    · have hd : table_name.data = [] := List.isEmpty_iff.mp h1
      have hs : (pyStrip table_name).data = [] := by
        unfold pyStrip pyStripChars pyDropTrailing
        rw [hd]
        rfl
      rw [if_pos h1, if_pos (by rw [hs]; rfl)]
    · rw [if_neg h1]
  rw [hres]
  by_cases h2 : (pyStrip table_name).data.isEmpty = true
  · rw [if_pos h2]
    constructor
    · intro t
      constructor
      · intro h; exact Except.noConfusion h
      · intro h
        rw [h2] at h
        exact absurd h.2.1 (by simp)
    · intro _
      exact ⟨_, rfl⟩
  · rw [if_neg h2]
    have h2f : (pyStrip table_name).data.isEmpty = false :=
      Bool.eq_false_iff.mpr h2
    by_cases h3 : (pyStrip table_name).data.all isTableNameChar = true
    · rw [if_pos h3]
      constructor
      · intro t
        constructor
        · intro h
          injection h with h
          exact ⟨h.symm, h2f, h3⟩
        · intro h
          rw [h.1]
      · intro h
        rcases h with h | h
        · exact absurd h h2
        · rw [h3] at h
          exact absurd h (by simp)
    · rw [if_neg h3]
      have h3f : (pyStrip table_name).data.all isTableNameChar = false :=
        Bool.eq_false_iff.mpr h3
      constructor
      · intro t
        constructor
        · intro h; exact Except.noConfusion h
        · intro h
          have hx := h.2.2
          rw [h3f] at hx
          exact absurd hx (by simp)
      · intro _
        exact ⟨_, rfl⟩


/-- Witness for C9: the padded name `" user_cluster "` trims to
`"user_cluster"` and validates; `"bad;name"` is rejected. -/
theorem ensure_safe_table_name_spec_witness :
    ensure_safe_table_name " user_cluster " = .ok "user_cluster" ∧
    (∃ e, ensure_safe_table_name "bad;name" = .error e) :=
  ⟨((ensure_safe_table_name_spec " user_cluster ").1 "user_cluster").mpr
      (by constructor
          · decide
          · constructor <;> decide),
   (ensure_safe_table_name_spec "bad;name").2 (by right; decide)⟩

/-! ### C3: column resolution -/

/-- C3: resolution tries the field's candidates in their declared order and
returns the first candidate present in the column set; if none is present
and `required` is true it fails with the 500 schema error naming the missing
field and the table; if none is present and `required` is false it returns
absence (`none`) rather than failing. -/
theorem _resolve_column_name_spec (column_key table_name : String)
    (columns : List String) (required : Bool) :
    (∀ pre c post, candidatesFor column_key = pre ++ c :: post →
      c ∈ columns → (∀ a ∈ pre, a ∉ columns) →
      _resolve_column_name column_key columns table_name required =
        .ok (some c)) ∧
    ((∀ c ∈ candidatesFor column_key, c ∉ columns) → required = true →
      _resolve_column_name column_key columns table_name required =
        .error (.http 500 (.columnNotFound column_key table_name))) ∧
    ((∀ c ∈ candidatesFor column_key, c ∉ columns) → required = false →
      _resolve_column_name column_key columns table_name required =
        .ok none) := by
  refine ⟨?_, ?_, ?_⟩
  · intro pre c post hsplit hc hpre
    have hfind : (candidatesFor column_key).find?
        (fun x => columns.contains x) = some c := by
      apply List.find?_eq_some.mpr
      refine ⟨List.elem_iff.mpr hc, pre, post, hsplit, ?_⟩
      intro a ha
      simpa [List.elem_iff] using hpre a ha
    unfold _resolve_column_name
    rw [hfind]
  · intro h hreq
    have hfind : (candidatesFor column_key).find?
        (fun x => columns.contains x) = none := by
      apply List.find?_eq_none.mpr
      intro x hx
      simpa [List.elem_iff] using h x hx
    unfold _resolve_column_name
    rw [hfind, hreq]
    rfl
  · intro h hreq
    have hfind : (candidatesFor column_key).find?
        (fun x => columns.contains x) = none := by
      apply List.find?_eq_none.mpr
      intro x hx
      simpa [List.elem_iff] using h x hx
    unfold _resolve_column_name
    rw [hfind, hreq]
    rfl

/-- Witness for C3: the specification's own example — with columns
`{"segment", "name"}`, logical field `"Segment"` (candidates
`["Segment", "segment"]`) resolves to `"segment"`; with columns lacking
every candidate, a required resolution fails naming field and table. -/
theorem _resolve_column_name_spec_witness :
    _resolve_column_name "Segment" ["segment", "name"] "user_cluster" true =
      .ok (some "segment") ∧
    _resolve_column_name "Segment" ["x"] "user_cluster" true =
      .error (.http 500 (.columnNotFound "Segment" "user_cluster")) :=
  ⟨(_resolve_column_name_spec "Segment" "user_cluster" ["segment", "name"]
      true).1 ["Segment"] "segment" [] (by decide) (by decide) (by decide),
   (_resolve_column_name_spec "Segment" "user_cluster" ["x"] true).2.1
      (by decide) rfl⟩

/-! ### C1: trend week selection -/

/-- C1: for every non-empty week catalog and every request (FastAPI
validates `weeks ≥ 1`), the weeks selected by `segment_trends` are exactly
the catalog entries inside the requested date bounds; if that filtered set
is empty, the most recent `weeks` entries of the full catalog; if it has
more than `weeks` entries, its most recent `weeks` entries; otherwise the
filtered set as-is — i.e. the code agrees with the spec-side policy
`trend_week_selection_spec`. -/
theorem select_trend_weeks_correct (catalog : List WeekColumn)
    (start stop : Option PyDate) (weeks : Nat) (hw : 1 ≤ weeks)
    (hne : catalog ≠ []) :
    select_trend_weeks catalog start stop weeks =
      trend_week_selection_spec catalog start stop weeks := by
  clear hne
  unfold select_trend_weeks trend_week_selection_spec
  by_cases h1 : catalog.filter (trendWeekKeep start stop) = []
  · rw [if_pos (List.isEmpty_iff.mpr h1), if_pos h1]
    exact pySliceLastN_eq_mostRecent weeks catalog hw
  · rw [if_neg (by simpa [List.isEmpty_iff] using h1), if_neg h1]
    by_cases h2 : weeks < (catalog.filter (trendWeekKeep start stop)).length
    · rw [if_pos h2, if_pos h2]
      exact pySliceLastN_eq_mostRecent weeks _ hw
    · rw [if_neg h2, if_neg h2]

/-- Witness for C1: a concrete three-week catalog with `weeks = 2` and no
date filter selects the two most recent weeks, agreeing with the policy. -/
theorem select_trend_weeks_correct_witness :
    select_trend_weeks
        [⟨"2024-01-01 - 2024-01-07", "2024-01-01 - 2024-01-07",
           ⟨2024, 1, 1⟩, ⟨2024, 1, 7⟩⟩,
         ⟨"2024-01-08 - 2024-01-14", "2024-01-08 - 2024-01-14",
           ⟨2024, 1, 8⟩, ⟨2024, 1, 14⟩⟩,
         ⟨"2024-01-15 - 2024-01-21", "2024-01-15 - 2024-01-21",
           ⟨2024, 1, 15⟩, ⟨2024, 1, 21⟩⟩] none none 2 =
      trend_week_selection_spec
        [⟨"2024-01-01 - 2024-01-07", "2024-01-01 - 2024-01-07",
           ⟨2024, 1, 1⟩, ⟨2024, 1, 7⟩⟩,
         ⟨"2024-01-08 - 2024-01-14", "2024-01-08 - 2024-01-14",
           ⟨2024, 1, 8⟩, ⟨2024, 1, 14⟩⟩,
         ⟨"2024-01-15 - 2024-01-21", "2024-01-15 - 2024-01-21",
           ⟨2024, 1, 15⟩, ⟨2024, 1, 21⟩⟩] none none 2 :=
  select_trend_weeks_correct _ none none 2 (by decide) (by decide)

/-! ### C2: category mapping and breakdown totals -/

theorem pyOrIntVal_eq (v : Int) : pyOrIntVal v = v := by
  unfold pyOrIntVal
  by_cases h : v = 0
  · simp [h]
  · simp [h]

theorem sum_map_if_update (L : List String) (t : String → Int) (a : String)
    (c : Int) (hnd : L.Nodup) (ha : a ∈ L) :
    (L.map (fun x => if x = a then t x + c else t x)).sum =
      (L.map t).sum + c := by
  induction L with
  | nil => cases ha
  | cons b L ih =>
    rcases List.mem_cons.mp ha with hba | haL
    · subst hba
      have hnotL : a ∉ L := (List.nodup_cons.mp hnd).1
      have hmap : L.map (fun x => if x = a then t x + c else t x) =
          L.map t := by
        apply List.map_congr_left
        intro x hx
        have hxa : ¬ x = a := fun h => hnotL (h ▸ hx)
        simp [hxa]
      simp only [List.map_cons, List.sum_cons, hmap, ite_true, if_true]
      omega
    · have hnd2 := (List.nodup_cons.mp hnd).2
      have hba : ¬ b = a := by
        intro h
        exact (List.nodup_cons.mp hnd).1 (h ▸ haL)
      simp only [List.map_cons, List.sum_cons, if_neg hba, ih hnd2 haL]
      omega

theorem categorized_uncategorized_split (rows : List (String × Int)) :
    categorized_user_count rows + uncategorized_user_count rows =
      (rows.map Prod.snd).sum := by
  unfold categorized_user_count uncategorized_user_count
  induction rows with
  | nil => rfl
  | cons r rows ih =>
    rw [List.filter_cons, List.filter_cons, List.map_cons, List.sum_cons]
    by_cases h : CATEGORY_ALIASES.contains (toCategory r.1) = true
    · rw [if_pos h, if_neg (by rw [h]; simp), List.map_cons, List.sum_cons]
      omega
    · have hf : CATEGORY_ALIASES.contains (toCategory r.1) = false :=
        Bool.eq_false_iff.mpr h
      rw [if_neg (by rw [hf]; simp), if_pos (by rw [hf]; rfl),
        List.map_cons, List.sum_cons]
      omega

theorem nodup_CATEGORY_ALIASES : CATEGORY_ALIASES.Nodup := by decide

theorem segment_stats_step_pos (acc : List SegmentCounts × (String → Int))
    (row : String × Int)
    (h : CATEGORY_ALIASES.contains (toCategory row.1) = true) :
    segment_stats_step acc row =
      (acc.1 ++ [⟨row.1,
          fun a => if a = toCategory row.1 then pyOrIntVal row.2 else 0⟩],
       fun a => if a = toCategory row.1 then acc.2 a + pyOrIntVal row.2
                else acc.2 a) := by
  unfold segment_stats_step
  rw [if_pos h]

theorem segment_stats_step_neg (acc : List SegmentCounts × (String → Int))
    (row : String × Int)
    (h : CATEGORY_ALIASES.contains (toCategory row.1) = false) :
    segment_stats_step acc row =
      (acc.1 ++ [⟨row.1, fun _ => 0⟩], acc.2) := by
  unfold segment_stats_step
  rw [if_neg (by rw [h]; simp)]

theorem sumTotals_foldl (rows : List (String × Int)) :
    ∀ (segs : List SegmentCounts) (t : String → Int),
    sumTotals ((rows.foldl segment_stats_step (segs, t)).2) =
      sumTotals t + categorized_user_count rows := by
  induction rows with
  | nil =>
    intro segs t
    simp [categorized_user_count]
  | cons r rows ih =>
    intro segs t
    rw [List.foldl_cons]
    by_cases h : CATEGORY_ALIASES.contains (toCategory r.1) = true
    · rw [segment_stats_step_pos (segs, t) r h, ih]
      have ha : toCategory r.1 ∈ CATEGORY_ALIASES := List.elem_iff.mp h
      have hbump := sum_map_if_update CATEGORY_ALIASES t (toCategory r.1)
        (pyOrIntVal r.2) nodup_CATEGORY_ALIASES ha
      unfold sumTotals
      rw [hbump]
      have hcat : categorized_user_count (r :: rows) =
          r.2 + categorized_user_count rows := by
        unfold categorized_user_count
        rw [List.filter_cons, if_pos h, List.map_cons, List.sum_cons]
      rw [hcat, pyOrIntVal_eq]
      omega
    · have hf : CATEGORY_ALIASES.contains (toCategory r.1) = false :=
        Bool.eq_false_iff.mpr h
      rw [segment_stats_step_neg (segs, t) r hf, ih]
      have hcat : categorized_user_count (r :: rows) =
          categorized_user_count rows := by
        unfold categorized_user_count
        rw [List.filter_cons, if_neg (by rw [hf]; simp)]
      rw [hcat]

theorem sum_map_beq_one (L : List String) (a : String) (hnd : L.Nodup)
    (ha : a ∈ L) :
    (L.map (fun x => if (a == x) = true then 1 else 0)).sum = 1 := by
  induction L with
  | nil => cases ha
  | cons b L ih =>
    rcases List.mem_cons.mp ha with hba | haL
    · subst hba
      have hnotL : a ∉ L := (List.nodup_cons.mp hnd).1
      have hmap : L.map (fun x => if (a == x) = true then 1 else 0) =
          L.map (fun _ => 0) := by
        apply List.map_congr_left
        intro x hx
        have hxa : (a == x) = false := by
          apply beq_false_of_ne
          intro h
          exact hnotL (h ▸ hx)
        simp [hxa]
      simp only [List.map_cons, List.sum_cons, hmap]
      have hz : (L.map (fun _ => (0 : Nat))).sum = 0 := by simp
      rw [hz]
      simp
    · have hnd2 := (List.nodup_cons.mp hnd).2
      have hba : (a == b) = false := by
        apply beq_false_of_ne
        intro h
        exact (List.nodup_cons.mp hnd).1 (h.symm ▸ haL)
      simp only [List.map_cons, List.sum_cons, hba, Bool.false_eq_true,
        if_neg, ite_false]
      simpa using ih hnd2 haL

theorem sum_map_add_distrib (L : List String) (f g : String → Nat) :
    (L.map (fun x => f x + g x)).sum = (L.map f).sum + (L.map g).sum := by
  induction L with
  | nil => rfl
  | cons b L ih =>
    simp only [List.map_cons, List.sum_cons, ih]
    omega

theorem sum_dedup_count (table : List String) :
    (table.dedup.map (fun l => table.count l)).sum = table.length := by
  induction table with
  | nil => rfl
  | cons a tl ih =>
    by_cases h : a ∈ tl
    · rw [List.dedup_cons_of_mem h]
      have hmap : tl.dedup.map (fun l => (a :: tl).count l) =
          tl.dedup.map (fun l => tl.count l +
            if (a == l) = true then 1 else 0) := by
        apply List.map_congr_left
        intro x _
        exact List.count_cons x a tl
      rw [hmap, sum_map_add_distrib, ih,
        sum_map_beq_one tl.dedup a (List.nodup_dedup tl)
          (List.mem_dedup.mpr h)]
      simp
    · rw [List.dedup_cons_of_not_mem h]
      simp only [List.map_cons, List.sum_cons]
      have hhead : (a :: tl).count a = tl.count a + 1 := by
        rw [List.count_cons]
        simp
      have hz : tl.count a = 0 := List.count_eq_zero.mpr h
      have hmap : tl.dedup.map (fun l => (a :: tl).count l) =
          tl.dedup.map (fun l => tl.count l) := by
        apply List.map_congr_left
        intro x hx
        rw [List.count_cons]
        have hax : (a == x) = false := by
          apply beq_false_of_ne
          intro hh
          exact h (hh ▸ List.mem_dedup.mp hx)
        simp [hax]
      rw [hhead, hz, hmap, ih]
      simp [Nat.add_comm]

theorem sqlGroupCounts_total (table : List String) :
    ((sqlGroupCounts table).map Prod.snd).sum = (table.length : Int) := by
  unfold sqlGroupCounts
  rw [List.map_map]
  have hcomp : (Prod.snd ∘ fun l => (l, (table.count l : Int))) =
      fun l => ((table.count l : Nat) : Int) := rfl
  rw [hcomp]
  have : ∀ (L : List String),
      (L.map (fun l => ((table.count l : Nat) : Int))).sum =
        ((L.map (fun l => table.count l)).sum : Nat) := by
    intro L
    induction L with
    | nil => rfl
    | cons b L ih =>
      simp only [List.map_cons, List.sum_cons, ih]
      push_cast
      ring
  rw [this, sum_dedup_count]

theorem lookup_mem_values (l : List (String × String)) (a b : String)
    (h : l.lookup a = some b) : b ∈ l.map Prod.snd := by
  induction l with
  | nil => cases h
  | cons p l ih =>
    obtain ⟨k, v⟩ := p
    by_cases hk : (a == k) = true
    · simp only [List.lookup, hk, ite_true] at h
      injection h with h
      subst h
      simp
    · have hkf : (a == k) = false := Bool.eq_false_iff.mpr hk
      simp only [List.lookup, hkf, Bool.false_eq_true, ite_false] at h
      simp [ih h]

theorem lookup_isSome_of_mem_keys (l : List (String × String)) (a : String)
    (h : a ∈ l.map Prod.fst) : (l.lookup a).isSome = true := by
  induction l with
  | nil => cases h
  | cons p l ih =>
    obtain ⟨k, v⟩ := p
    by_cases hk : (a == k) = true
    · simp [List.lookup, hk]
    · have hkf : (a == k) = false := Bool.eq_false_iff.mpr hk
      simp only [List.lookup, hkf, Bool.false_eq_true, ite_false]
      apply ih
      simp only [List.map_cons, List.mem_cons] at h
      rcases h with h | h
      · exact absurd (beq_iff_eq.mpr h) hk
      · exact h

theorem lookup_eq_none_of_not_mem_keys (l : List (String × String))
    (a : String) (h : a ∉ l.map Prod.fst) : l.lookup a = none := by
  induction l with
  | nil => rfl
  | cons p l ih =>
    obtain ⟨k, v⟩ := p
    simp only [List.map_cons, List.mem_cons, not_or] at h
    have hkf : (a == k) = false := beq_false_of_ne h.1
    simp only [List.lookup, hkf, Bool.false_eq_true, ite_false]
    exact ih h.2

theorem segment_label_values_eq_aliases :
    SEGMENT_LABEL_TO_ALIAS.map Prod.snd = CATEGORY_ALIASES := by decide

/-- C2 (amended): the category mapping is total — every raw label is either
one of the 8 canonical labels (and maps to its category key), or passes
through unchanged — and the sum of the per-category totals of a segment
breakdown plus the count of users in segments whose mapped label is not one
of the 8 category keys equals `total_users`.  (The original claim counted
all pass-through segments; see the counterexample.) -/
theorem segment_stats_category_totals (table : List String) :
    (∀ label, (label ∈ canonicalLabels ∧ toCategory label ∈ CATEGORY_ALIASES) ∨
      (label ∉ canonicalLabels ∧ toCategory label = label)) ∧
    sumTotals (segment_stats_core (sqlGroupCounts table)
        (table.length : Int)).totals +
      uncategorized_user_count (sqlGroupCounts table) =
    (segment_stats_core (sqlGroupCounts table)
        (table.length : Int)).total_users := by
  constructor
  · intro label
    by_cases hmem : label ∈ canonicalLabels
    · left
      refine ⟨hmem, ?_⟩
      have hkeys : label ∈ SEGMENT_LABEL_TO_ALIAS.map Prod.fst := hmem
      have hs := lookup_isSome_of_mem_keys SEGMENT_LABEL_TO_ALIAS label hkeys
      obtain ⟨a, ha⟩ := Option.isSome_iff_exists.mp hs
      have hcat : toCategory label = a := by
        unfold toCategory
        rw [ha]
        rfl
      rw [hcat]
      have hv := lookup_mem_values SEGMENT_LABEL_TO_ALIAS label a ha
      rw [segment_label_values_eq_aliases] at hv
      exact hv
    · right
      refine ⟨hmem, ?_⟩
      have hnone := lookup_eq_none_of_not_mem_keys SEGMENT_LABEL_TO_ALIAS
        label hmem
      unfold toCategory
      rw [hnone]
      rfl
  · have hcore : (segment_stats_core (sqlGroupCounts table)
        (table.length : Int)).totals =
        ((sqlGroupCounts table).foldl segment_stats_step
          ([], fun _ => 0)).2 := rfl
    have htu : (segment_stats_core (sqlGroupCounts table)
        (table.length : Int)).total_users = (table.length : Int) := rfl
    rw [hcore, htu, sumTotals_foldl]
    have hz : sumTotals (fun _ => 0) = 0 := rfl
    rw [hz]
    have h1 := categorized_uncategorized_split (sqlGroupCounts table)
    have h2 := sqlGroupCounts_total table
    omega

/-- Counterexample to C2 as stated: a table with one user whose raw segment
label is `"inactive"` (not a canonical label, so it passes through
unchanged, yet it coincides with the category key `inactive` and is counted
into that category's total).  Category totals sum to 1, pass-through users
count 1, but `total_users` is 1, so the claimed identity `1 + 1 = 1`
fails. -/
theorem segment_stats_passthrough_cex :
    sumTotals (segment_stats_core (sqlGroupCounts ["inactive"]) 1).totals +
        passthrough_user_count (sqlGroupCounts ["inactive"]) ≠
      (segment_stats_core (sqlGroupCounts ["inactive"]) 1).total_users := by
  decide

/-! ### C6: empty week catalog propagates as 404 -/

theorem _resolve_column_name_first (column_key : String) (cols : List String)
    (t : String) (required : Bool) (c : String)
    (hc : (candidatesFor column_key).find? (fun x => cols.contains x) =
      some c) :
    _resolve_column_name column_key cols t required = .ok (some c) := by
  unfold _resolve_column_name
  rw [hc]

/-- C6: for every table whose week catalog is empty (no introspected column
name parses as a week), each of the three week-consuming endpoints fails
with its 404 "no weekly columns" error, for every store `db` — so before
its main query is consulted and never as an empty-but-successful result.
(The hypotheses state that the request is otherwise well-formed: the table
name resolves, the required columns exist, and the timeline date guard does
not fire.) -/
theorem empty_week_catalog_404 (table_name : Option String)
    (envTable tbl : String) (table_columns : List String)
    (hT : _resolve_table_name table_name envTable = .ok tbl)
    (hW : _get_week_columns table_columns = [])
    (cS cU cN : String)
    (hcS : (candidatesFor "Segment").find?
      (fun x => table_columns.contains x) = some cS)
    (hcU : (candidatesFor "User ID").find?
      (fun x => table_columns.contains x) = some cU)
    (hcN : (candidatesFor "Name").find?
      (fun x => table_columns.contains x) = some cN)
    (segment : String) (weeks : Nat) (segments : Option (List String))
    (start stop : Option PyDate)
    (hG : user_timeline_guard start stop = false) :
    (∀ db, segment_insights segment table_name weeks envTable table_columns
        db =
      .error (.http 404
        (.msg "No weekly columns configured for this table."))) ∧
    (∀ db, segment_trends segments table_name start stop weeks envTable
        table_columns db =
      .error (.http 404
        (.msg "No weekly columns configured for this table."))) ∧
    (∀ db, user_timeline table_name start stop envTable table_columns db =
      .error (.http 404
        (.msg "No weekly columns available in the selected table."))) := by
  have hresS := _resolve_column_name_first "Segment" table_columns tbl true
    cS hcS
  have hresU := _resolve_column_name_first "User ID" table_columns tbl true
    cU hcU
  have hresN := _resolve_column_name_first "Name" table_columns tbl true
    cN hcN
  refine ⟨?_, ?_, ?_⟩
  · intro db
    simp [segment_insights, hT, hresS, hW]
  · intro db
    simp [segment_trends, hT, hresS, hW]
  · intro db
    simp [user_timeline, hG, user_timeline_rest, hT, hresS, hresU, hresN, hW]

/-- Witness for C6: a concrete table with columns `segment`, `name`,
`user_id` and no week columns draws the 404 from all three endpoints. -/
theorem empty_week_catalog_404_witness :
    segment_insights "Casual" none 8 "user_cluster"
        ["segment", "name", "user_id"] ⟨none, 0, none, [], none⟩ =
      .error (.http 404
        (.msg "No weekly columns configured for this table.")) ∧
    segment_trends none none none none 12 "user_cluster"
        ["segment", "name", "user_id"] ⟨none, 0, none, [], none⟩ =
      .error (.http 404
        (.msg "No weekly columns configured for this table.")) ∧
    user_timeline none none none "user_cluster"
        ["segment", "name", "user_id"] ⟨none, 0, none, [], none⟩ =
      .error (.http 404
        (.msg "No weekly columns available in the selected table.")) := by
  have h := empty_week_catalog_404 none "user_cluster" "user_cluster"
    ["segment", "name", "user_id"] rfl (by decide)
    "segment" "user_id" "name" (by decide) (by decide) (by decide)
    "Casual" 8 none none none (by decide)
  exact ⟨h.1 ⟨none, 0, none, [], none⟩, h.2.1 ⟨none, 0, none, [], none⟩,
    h.2.2 ⟨none, 0, none, [], none⟩⟩

/-! ### C7: zero matching users yields 404, never a zero-count metrics -/

/-- C7: when the aggregate row of `segment_insights` is missing or reports
zero matching users (`user_count` null or 0), the endpoint fails with the
404 "Segment not found or has no users." error; and a successful response
never carries `metrics.user_count = 0`.  (The hypotheses state that the
request reaches the metrics query: table name resolves, the segment column
exists, and the week catalog is non-empty.) -/
theorem segment_insights_zero_users (segment : String)
    (table_name : Option String) (weeks : Nat) (envTable tbl : String)
    (table_columns : List String) (db : Db)
    (hT : _resolve_table_name table_name envTable = .ok tbl)
    (cS : String)
    (hcS : (candidatesFor "Segment").find?
      (fun x => table_columns.contains x) = some cS)
    (hWne : (_get_week_columns table_columns).isEmpty = false) :
    (db.metricsRow = none →
      segment_insights segment table_name weeks envTable table_columns db =
        .error (.http 404 (.msg "Segment not found or has no users."))) ∧
    (∀ mr, db.metricsRow = some mr → pyOrInt mr.user_count = 0 →
      segment_insights segment table_name weeks envTable table_columns db =
        .error (.http 404 (.msg "Segment not found or has no users."))) ∧
    (∀ r, segment_insights segment table_name weeks envTable table_columns
        db = .ok r → r.metrics.user_count ≠ 0) := by
  have hresS := _resolve_column_name_first "Segment" table_columns tbl true
    cS hcS
  refine ⟨?_, ?_, ?_⟩
  · intro hmr
    simp [segment_insights, hT, hresS, hWne, hmr]
  · intro mr hmr hz
    simp [segment_insights, hT, hresS, hWne, hmr, hz]
  · intro r h
    cases hmr : db.metricsRow with
    | none =>
      simp [segment_insights, hT, hresS, hWne, hmr] at h
    | some mr =>
      by_cases hz : pyOrInt mr.user_count = 0
      · simp [segment_insights, hT, hresS, hWne, hmr, hz] at h
      · simp [segment_insights, hT, hresS, hWne, hmr, hz] at h
        split at h
        · exact Except.noConfusion h
        · injection h with h
          rw [← h]
          simpa using hz

/-- Witness for C7: a one-column week catalog; a metrics row with
`user_count = 0` draws the 404, and with `user_count = 7` the successful
response reports a non-zero count. -/
theorem segment_insights_zero_users_witness :
    segment_insights "Casual" none 8 "user_cluster"
        ["segment", "2024-01-01 - 2024-01-07"]
        ⟨some ⟨some 0, none, none, none, none, none⟩, 0, none, [], none⟩ =
      .error (.http 404 (.msg "Segment not found or has no users.")) ∧
    (∀ r, segment_insights "Casual" none 8 "user_cluster"
        ["segment", "2024-01-01 - 2024-01-07"]
        ⟨some ⟨some 7, none, none, none, none, none⟩, 3, some [], [], none⟩ =
        .ok r → r.metrics.user_count ≠ 0) :=
  ⟨(segment_insights_zero_users "Casual" none 8 "user_cluster" "user_cluster"
      ["segment", "2024-01-01 - 2024-01-07"]
      ⟨some ⟨some 0, none, none, none, none, none⟩, 0, none, [], none⟩
      rfl "segment" (by decide) (by decide)).2.1
      ⟨some 0, none, none, none, none, none⟩ rfl (by decide),
   (segment_insights_zero_users "Casual" none 8 "user_cluster" "user_cluster"
      ["segment", "2024-01-01 - 2024-01-07"]
      ⟨some ⟨some 7, none, none, none, none, none⟩, 3, some [], [], none⟩
      rfl "segment" (by decide) (by decide)).2.2⟩

/-! ### C8: timeline value coercion -/

theorem exceptMapM_ok_eq (f : α → Except ApiError β) (g : α → β)
    (hfg : ∀ x k, f x = .ok k → k = g x) :
    ∀ (l : List α) (out : List β), exceptMapM f l = .ok out →
      out = l.map g := by
  intro l
  induction l with
  | nil =>
    intro out h
    unfold exceptMapM at h
    injection h with h
    rw [← h]
    rfl
  | cons x xs ih =>
    intro out h
    unfold exceptMapM at h
    cases hfx : f x with
    | error e => rw [hfx] at h; exact Except.noConfusion h
    | ok y =>
      rw [hfx] at h
      cases hrec : exceptMapM f xs with
      | error e => rw [hrec] at h; exact Except.noConfusion h
      | ok ys =>
        rw [hrec] at h
        injection h with h
        rw [← h, List.map_cons, hfg x y hfx, ih ys hrec]

theorem timeline_contests_ok (v : Option SqlValue) (i : Int)
    (h : timeline_contests v = .ok i) : i = timeline_count_spec v := by
  cases v with
  | none =>
    unfold timeline_contests at h
    injection h with h
    rw [← h]
    rfl
  | some w =>
    cases w with
    | vNull =>
      unfold timeline_contests at h
      injection h with h
      rw [← h]
      rfl
    | vInt j =>
      unfold timeline_contests at h
      injection h with h
      rw [← h]
      rfl
    | vStr s =>
      simp only [timeline_contests] at h
      simp only [timeline_count_spec]
      by_cases hs : s = ""
      · rw [if_pos hs] at h
        rw [if_pos hs]
        injection h with h
        exact h.symm
      · rw [if_neg hs] at h
        rw [if_neg hs]
        cases hp : pyIntOfString s with
        | none => rw [hp] at h; exact Except.noConfusion h
        | some j =>
          rw [hp] at h
          injection h with h
          rw [← h]
          simp [hp]

/-- C8: whenever the timeline loop of `user_timeline` succeeds, the points
are exactly the week columns inside the optional `[start, end]` bound, each
carrying the stored value coerced to an integer with null/missing and
empty-string values treated as zero (`timeline_count_spec`); in particular
raw week values `[5, null, "", 3]` across four week columns yield counts
`[5, 0, 0, 3]`. -/
theorem user_timeline_count_coercion :
    (∀ (week_columns : List WeekColumn) (start stop : Option PyDate)
        (row : List (String × SqlValue)) (pts : List TimelinePoint),
      timeline_points week_columns start stop row = .ok pts →
      pts = (week_columns.filter (timeline_keeps start stop)).map
        (fun c => ⟨c.label, c.start_date, c.end_date,
          timeline_count_spec (assocGet row c.raw)⟩)) ∧
    timeline_points
        [⟨"2024-01-01 - 2024-01-07", "2024-01-01 - 2024-01-07",
           ⟨2024, 1, 1⟩, ⟨2024, 1, 7⟩⟩,
         ⟨"2024-01-08 - 2024-01-14", "2024-01-08 - 2024-01-14",
           ⟨2024, 1, 8⟩, ⟨2024, 1, 14⟩⟩,
         ⟨"2024-01-15 - 2024-01-21", "2024-01-15 - 2024-01-21",
           ⟨2024, 1, 15⟩, ⟨2024, 1, 21⟩⟩,
         ⟨"2024-01-22 - 2024-01-28", "2024-01-22 - 2024-01-28",
           ⟨2024, 1, 22⟩, ⟨2024, 1, 28⟩⟩] none none
        [("2024-01-01 - 2024-01-07", .vInt 5),
         ("2024-01-08 - 2024-01-14", .vNull),
         ("2024-01-15 - 2024-01-21", .vStr ""),
         ("2024-01-22 - 2024-01-28", .vInt 3)] =
      .ok
        [⟨"2024-01-01 - 2024-01-07", ⟨2024, 1, 1⟩, ⟨2024, 1, 7⟩, 5⟩,
         ⟨"2024-01-08 - 2024-01-14", ⟨2024, 1, 8⟩, ⟨2024, 1, 14⟩, 0⟩,
         ⟨"2024-01-15 - 2024-01-21", ⟨2024, 1, 15⟩, ⟨2024, 1, 21⟩, 0⟩,
         ⟨"2024-01-22 - 2024-01-28", ⟨2024, 1, 22⟩, ⟨2024, 1, 28⟩, 3⟩] := by
  constructor
  · intro week_columns start stop row pts h
    unfold timeline_points at h
    apply exceptMapM_ok_eq _ _ ?_ _ _ h
    intro x k hxk
    cases hc : timeline_contests (assocGet row x.raw) with
    | error e => rw [hc] at hxk; exact Except.noConfusion hxk
    | ok j =>
      rw [hc] at hxk
      injection hxk with hxk
      rw [← hxk, timeline_contests_ok (assocGet row x.raw) j hc]
  · rfl

/-- Witness for C8: the characterization applied at the concrete
`[5, null, "", 3]` instance. -/
theorem user_timeline_count_coercion_witness :
    ([⟨"2024-01-01 - 2024-01-07", ⟨2024, 1, 1⟩, ⟨2024, 1, 7⟩, 5⟩,
      ⟨"2024-01-08 - 2024-01-14", ⟨2024, 1, 8⟩, ⟨2024, 1, 14⟩, 0⟩,
      ⟨"2024-01-15 - 2024-01-21", ⟨2024, 1, 15⟩, ⟨2024, 1, 21⟩, 0⟩,
      ⟨"2024-01-22 - 2024-01-28", ⟨2024, 1, 22⟩, ⟨2024, 1, 28⟩, 3⟩] :
        List TimelinePoint) =
      (([⟨"2024-01-01 - 2024-01-07", "2024-01-01 - 2024-01-07",
           ⟨2024, 1, 1⟩, ⟨2024, 1, 7⟩⟩,
         ⟨"2024-01-08 - 2024-01-14", "2024-01-08 - 2024-01-14",
           ⟨2024, 1, 8⟩, ⟨2024, 1, 14⟩⟩,
         ⟨"2024-01-15 - 2024-01-21", "2024-01-15 - 2024-01-21",
           ⟨2024, 1, 15⟩, ⟨2024, 1, 21⟩⟩,
         ⟨"2024-01-22 - 2024-01-28", "2024-01-22 - 2024-01-28",
           ⟨2024, 1, 22⟩, ⟨2024, 1, 28⟩⟩] :
          List WeekColumn).filter (timeline_keeps none none)).map
        (fun c => ⟨c.label, c.start_date, c.end_date,
          timeline_count_spec (assocGet
            [("2024-01-01 - 2024-01-07", .vInt 5),
             ("2024-01-08 - 2024-01-14", .vNull),
             ("2024-01-15 - 2024-01-21", .vStr ""),
             ("2024-01-22 - 2024-01-28", .vInt 3)] c.raw)⟩) :=
  user_timeline_count_coercion.1 _ none none _ _
    user_timeline_count_coercion.2

/-! ### C5: week-column parsing -/

theorem _parse_week_column_raw (n : String) (w : WeekColumn)
    (h : _parse_week_column n = some w) : w.raw = n := by
  simp only [_parse_week_column] at h
  split at h
  · split at h
    · injection h with h
      rw [← h]
    · exact Option.noConfusion h
  · exact Option.noConfusion h

/-- Counterexample to C5 as stated: the name `"2024-1-7 - 2024-1-8"` is
parsed into a `WeekColumn` although neither part is a date in the fixed
(zero-padded) `YYYY-MM-DD` format — CPython `strptime` accepts one-digit
months and days for `%m`/`%d`. -/
theorem _parse_week_column_strict_cex :
    (_parse_week_column "2024-1-7 - 2024-1-8").isSome = true ∧
    splitDash (pyCleanWeekName "2024-1-7 - 2024-1-8".data) =
      ["2024-1-7".data, "2024-1-8".data] ∧
    parseStrictYMD "2024-1-7".data = none := by decide

/-- C5 (amended): parsing yields a `WeekColumn` exactly when the name,
after stripping whitespace and wrapping apostrophes, splits on `" - "` into
two parts that each parse under Python's lenient `%Y-%m-%d` (four-digit
year, one- or two-digit month and day, valid calendar date); a name failing
this never enters the week catalog; and a name whose start date is after
its end date is still accepted as parsed. -/
theorem _parse_week_column_spec :
    (∀ name : String, (_parse_week_column name).isSome = true ↔
      ∃ p1 p2, splitDash (pyCleanWeekName name.data) = [p1, p2] ∧
        (strptimeYMD p1).isSome = true ∧ (strptimeYMD p2).isSome = true) ∧
    (∀ (names : List String) (name : String),
      _parse_week_column name = none →
      ∀ w ∈ _get_week_columns names, w.raw ≠ name) ∧
    _parse_week_column "2024-02-01 - 2024-01-01" =
      some ⟨"2024-02-01 - 2024-01-01", "2024-02-01 - 2024-01-01",
        ⟨2024, 2, 1⟩, ⟨2024, 1, 1⟩⟩ ∧
    pyDateLt (⟨2024, 1, 1⟩ : PyDate) ⟨2024, 2, 1⟩ := by
  refine ⟨?_, ?_, by decide, by decide⟩
  · intro name
    cases l0 : splitDash (pyCleanWeekName name.data) with
    | nil => simp [_parse_week_column, l0]
    | cons p1 t1 =>
      cases t1 with
      | nil => simp [_parse_week_column, l0]
      | cons p2 t2 =>
        cases t2 with
        | nil =>
          cases hp1 : strptimeYMD p1 with
          | none => simp [_parse_week_column, l0, hp1]
          | some d1 =>
            cases hp2 : strptimeYMD p2 with
            | none => simp [_parse_week_column, l0, hp1, hp2]
            | some d2 =>
              simp [_parse_week_column, l0, hp1, hp2]
              exact ⟨p1, p2, ⟨rfl, rfl⟩, by simp [hp1], by simp [hp2]⟩
        | cons p3 t3 => simp [_parse_week_column, l0]
  · intro names name hn w hw heq
    unfold _get_week_columns at hw
    have hw2 : w ∈ (names.filter
        (fun n => mysqlWeekRegexp n.data)).filterMap _parse_week_column :=
      (List.perm_insertionSort weekColLe _).mem_iff.mp hw
    rcases List.mem_filterMap.mp hw2 with ⟨n2, _, hpn2⟩
    have hraw := _parse_week_column_raw n2 w hpn2
    rw [heq] at hraw
    rw [← hraw] at hpn2
    rw [hn] at hpn2
    exact Option.noConfusion hpn2

/-- Witness for C5: the characterization run both ways on concrete names —
`"hello"` fails to split/parse and so never enters a catalog built over it;
`"2024-01-01 - 2024-01-07"` satisfies the split-and-parse condition and is
parsed. -/
theorem _parse_week_column_spec_witness :
    (∀ w ∈ _get_week_columns ["hello", "2024-01-01 - 2024-01-07"],
      w.raw ≠ "hello") ∧
    (_parse_week_column "2024-01-01 - 2024-01-07").isSome = true :=
  ⟨_parse_week_column_spec.2.1 ["hello", "2024-01-01 - 2024-01-07"] "hello"
      (by decide),
   (_parse_week_column_spec.1 "2024-01-01 - 2024-01-07").mpr
      ⟨"2024-01-01".data, "2024-01-07".data, by decide, by decide, by decide⟩⟩

/-! ### C4: catalog order and date round-trip -/

theorem dval_lt_10 (c : Char) (hc : isDigitChar c = true) : dval c < 10 := by
  unfold isDigitChar at hc
  simp only [Bool.and_eq_true, decide_eq_true_eq] at hc
  unfold dval
  omega

theorem digitChar_dval (c : Char) (hc : isDigitChar c = true) :
    digitChar (dval c) = c := by
  unfold isDigitChar at hc
  simp only [Bool.and_eq_true, decide_eq_true_eq] at hc
  unfold digitChar dval
  have h48 : 48 + (c.toNat - 48) = c.toNat := by omega
  rw [h48, Char.ofNat_toNat]

theorem digit_not_space (c : Char) (hc : isDigitChar c = true) :
    isPySpace c = false := by
  unfold isDigitChar at hc
  simp only [Bool.and_eq_true, decide_eq_true_eq] at hc
  apply Bool.eq_false_iff.mpr
  intro hcon
  unfold isPySpace at hcon
  have hm := List.elem_iff.mp hcon
  simp only [List.mem_cons, List.not_mem_nil, or_false] at hm
  omega

theorem digit_not_apostrophe (c : Char) (hc : isDigitChar c = true) :
    (c == apostropheChar) = false := by
  unfold isDigitChar at hc
  simp only [Bool.and_eq_true, decide_eq_true_eq] at hc
  apply beq_false_of_ne
  intro h
  have : c.toNat = 39 := by rw [h]; rfl
  omega

theorem digit_ne_space (c : Char) (hc : isDigitChar c = true) : ¬ c = ' ' := by
  intro h
  rw [h] at hc
  exact absurd hc (by decide)

theorem digit_ne_dash (c : Char) (hc : isDigitChar c = true) : ¬ c = '-' := by
  intro h
  rw [h] at hc
  exact absurd hc (by decide)

theorem shape10_decomp (s : List Char) (hs : isShape10 s = true) :
    ∃ a b c d e f g h, s = [a, b, c, d, '-', e, f, '-', g, h] ∧
      isDigitChar a = true ∧ isDigitChar b = true ∧ isDigitChar c = true ∧
      isDigitChar d = true ∧ isDigitChar e = true ∧ isDigitChar f = true ∧
      isDigitChar g = true ∧ isDigitChar h = true := by
  unfold isShape10 at hs
  split at hs
  · rename_i a b c d x e f y g h
    simp only [Bool.and_eq_true, beq_iff_eq] at hs
    obtain ⟨⟨⟨⟨⟨⟨⟨⟨⟨ha, hb⟩, hc⟩, hd⟩, hx⟩, he⟩, hf⟩, hy⟩, hg⟩, hh⟩ := hs
    exact ⟨a, b, c, d, e, f, g, h, by rw [hx, hy], ha, hb, hc, hd, he, hf,
      hg, hh⟩
  · exact absurd hs (by simp)

theorem splitDash_cons_nomatch (c : Char) (rest : List Char)
    (h : ∀ r2, c = ' ' → rest = '-' :: ' ' :: r2 → False) :
    splitDash (c :: rest) =
      match splitDash rest with
      | [] => [[c]]
      | p :: ps => (c :: p) :: ps := by
  rw [splitDash.eq_def]
  split
  · simp_all
  · rename_i heq
    injection heq with h1 h2
    exact absurd (h _ h1 h2) not_false
  · rename_i c2 rest2 heq
    injection heq with h1 h2
    subst h1
    subst h2
    rfl

theorem splitDash_ne_nil (l : List Char) : splitDash l ≠ [] := by
  induction l using splitDash.induct with
  | case1 => simp [splitDash]
  | case2 rest ih => simp [splitDash]
  | case3 c rest hne hsplit ih =>
    rw [splitDash_cons_nomatch c rest hne, hsplit]
    simp
  | case4 c rest hne p ps hsplit ih =>
    rw [splitDash_cons_nomatch c rest hne, hsplit]
    simp

theorem splitDash_single (l : List Char) :
    ∀ p, splitDash l = [p] → l = p := by
  induction l using splitDash.induct with
  | case1 =>
    intro p h
    have h2 : ([[]] : List (List Char)) = [p] := h
    simpa using h2
  | case2 rest ih =>
    intro p h
    have h2 : splitDash (' ' :: '-' :: ' ' :: rest) = [] :: splitDash rest :=
      rfl
    rw [h2] at h
    injection h with h1 h3
    exact absurd h3 (splitDash_ne_nil rest)
  | case3 c rest hne hsplit ih =>
    exact absurd hsplit (splitDash_ne_nil rest)
  | case4 c rest hne p ps hsplit ih =>
    intro q h
    rw [splitDash_cons_nomatch c rest hne, hsplit] at h
    injection h with h1 h2
    have hps : ps = [] := h2
    rw [hps] at hsplit
    have := ih p hsplit
    rw [← h1, this]

theorem splitDash_pair (l : List Char) :
    ∀ p1 p2, splitDash l = [p1, p2] →
      l = p1 ++ ' ' :: '-' :: ' ' :: p2 := by
  induction l using splitDash.induct with
  | case1 =>
    intro p1 p2 h
    have h2 : ([[]] : List (List Char)) = [p1, p2] := h
    simp at h2
  | case2 rest ih =>
    intro p1 p2 h
    have h2 : splitDash (' ' :: '-' :: ' ' :: rest) = [] :: splitDash rest :=
      rfl
    rw [h2] at h
    injection h with h1 h3
    have := splitDash_single rest p2 h3
    rw [← h1, this]
    rfl
  | case3 c rest hne hsplit ih =>
    exact absurd hsplit (splitDash_ne_nil rest)
  | case4 c rest hne p ps hsplit ih =>
    intro p1 p2 h
    rw [splitDash_cons_nomatch c rest hne, hsplit] at h
    injection h with h1 h2
    have hps : ps = [p2] := h2
    rw [hps] at hsplit
    have := ih p p2 hsplit
    rw [← h1, this]
    rfl

theorem splitDash_no_sep_self (s : List Char) (hs : ∀ c ∈ s, ¬ c = ' ') :
    splitDash s = [s] := by
  induction s with
  | nil => rfl
  | cons a s ih =>
    have ha : ¬ a = ' ' := hs a (by simp)
    rw [splitDash_cons_nomatch a s (fun r2 hae _ => ha hae),
      ih (fun c hc => hs c (by simp [hc]))]

theorem splitDash_no_space_append (s t : List Char)
    (hs : ∀ c ∈ s, ¬ c = ' ') :
    splitDash (s ++ ' ' :: '-' :: ' ' :: t) = s :: splitDash t := by
  induction s with
  | nil => rfl
  | cons a s ih =>
    have ha : ¬ a = ' ' := hs a (by simp)
    rw [List.cons_append,
      splitDash_cons_nomatch a _ (fun r2 hae _ => ha hae),
      ih (fun c hc => hs c (by simp [hc]))]

theorem dropWhile_cons_false (p : Char → Bool) (a : Char) (l : List Char)
    (h : p a = false) : (a :: l).dropWhile p = a :: l := by
  simp [List.dropWhile_cons, h]

theorem parseYear4_digits (a b c d : Char) (rest : List Char)
    (ha : isDigitChar a = true) (hb : isDigitChar b = true)
    (hc : isDigitChar c = true) (hd : isDigitChar d = true) :
    parseYear4 (a :: b :: c :: d :: rest) =
      some (1000 * dval a + 100 * dval b + 10 * dval c + dval d, rest) := by
  simp only [parseYear4]
  rw [if_pos (by rw [ha, hb, hc, hd]; rfl)]

theorem parseMonth12_shape (e f : Char) (rest : List Char)
    (he : isDigitChar e = true) (hf : isDigitChar f = true) :
    parseMonth12 (e :: f :: '-' :: rest) =
      some (10 * dval e + dval f, '-' :: rest) ∨
    (∃ m, parseMonth12 (e :: f :: '-' :: rest) =
      some (m, f :: '-' :: rest)) ∨
    parseMonth12 (e :: f :: '-' :: rest) = none := by
  simp only [parseMonth12]
  by_cases b1 : ((e == '1') && (isDigitChar f && decide (dval f ≤ 2))) = true
  · rw [if_pos b1]
    left
    have he1 : e = '1' := by
      simp only [Bool.and_eq_true, beq_iff_eq] at b1
      exact b1.1
    have hd1 : dval e = 1 := by rw [he1]; rfl
    rw [hd1]
  · rw [if_neg b1]
    by_cases b2 : ((e == '0') && (isDigitChar f && decide (1 ≤ dval f))) = true
    · rw [if_pos b2]
      left
      have he0 : e = '0' := by
        simp only [Bool.and_eq_true, beq_iff_eq] at b2
        exact b2.1
      have hd0 : dval e = 0 := by rw [he0]; rfl
      rw [hd0]
      norm_num
    · rw [if_neg b2]
      by_cases b3 : (isDigitChar e && decide (1 ≤ dval e)) = true
      · rw [if_pos b3]
        right
        left
        exact ⟨dval e, rfl⟩
      · rw [if_neg b3]
        right
        right
        rfl

theorem parseDay31_shape (g h : Char) (hg : isDigitChar g = true)
    (hh : isDigitChar h = true) :
    parseDay31 [g, h] = some (10 * dval g + dval h, []) ∨
    (∃ d, parseDay31 [g, h] = some (d, [h])) ∨
    parseDay31 [g, h] = none := by
  simp only [parseDay31]
  by_cases b1 : ((g == '3') && (isDigitChar h && decide (dval h ≤ 1))) = true
  · rw [if_pos b1]
    left
    have hg3 : g = '3' := by
      simp only [Bool.and_eq_true, beq_iff_eq] at b1
      exact b1.1
    have hd3 : dval g = 3 := by rw [hg3]; rfl
    rw [hd3]
  · rw [if_neg b1]
    by_cases b2 : (((g == '1') || (g == '2')) && isDigitChar h) = true
    · rw [if_pos b2]
      left
      rfl
    · rw [if_neg b2]
      by_cases b3 : ((g == '0') && (isDigitChar h && decide (1 ≤ dval h))) = true
      · rw [if_pos b3]
        left
        have hg0 : g = '0' := by
          simp only [Bool.and_eq_true, beq_iff_eq] at b3
          exact b3.1
        have hd0 : dval g = 0 := by rw [hg0]; rfl
        rw [hd0]
        norm_num
      · rw [if_neg b3]
        by_cases b4 : (isDigitChar g && decide (1 ≤ dval g)) = true
        · rw [if_pos b4]
          right
          left
          exact ⟨dval g, rfl⟩
        · rw [if_neg b4]
          right
          right
          rfl

theorem pad2_digits (e f : Char) (he : isDigitChar e = true)
    (hf : isDigitChar f = true) :
    pad2 (10 * dval e + dval f) = [e, f] := by
  have h1 : dval e < 10 := dval_lt_10 e he
  have h2 : dval f < 10 := dval_lt_10 f hf
  unfold pad2
  have hq : (10 * dval e + dval f) / 10 % 10 = dval e := by omega
  have hr : (10 * dval e + dval f) % 10 = dval f := by omega
  rw [hq, hr, digitChar_dval e he, digitChar_dval f hf]

theorem pad4_digits (a b c d : Char) (ha : isDigitChar a = true)
    (hb : isDigitChar b = true) (hc : isDigitChar c = true)
    (hd : isDigitChar d = true) :
    pad4 (1000 * dval a + 100 * dval b + 10 * dval c + dval d) =
      [a, b, c, d] := by
  have h1 : dval a < 10 := dval_lt_10 a ha
  have h2 : dval b < 10 := dval_lt_10 b hb
  have h3 : dval c < 10 := dval_lt_10 c hc
  have h4 : dval d < 10 := dval_lt_10 d hd
  unfold pad4
  have q1 : (1000 * dval a + 100 * dval b + 10 * dval c + dval d) / 1000 %
      10 = dval a := by omega
  have q2 : (1000 * dval a + 100 * dval b + 10 * dval c + dval d) / 100 %
      10 = dval b := by omega
  have q3 : (1000 * dval a + 100 * dval b + 10 * dval c + dval d) / 10 %
      10 = dval c := by omega
  have q4 : (1000 * dval a + 100 * dval b + 10 * dval c + dval d) % 10 =
      dval d := by omega
  rw [q1, q2, q3, q4, digitChar_dval a ha, digitChar_dval b hb,
    digitChar_dval c hc, digitChar_dval d hd]

theorem strptime_shape10_fmt (s : List Char) (hs : isShape10 s = true)
    (d : PyDate) (hp : strptimeYMD s = some d) : fmtYMD d = s := by
  obtain ⟨a, b, c, d4, e, f, g, h, hseq, ha, hb, hc, hd4, he, hf, hg, hh⟩ :=
    shape10_decomp s hs
  subst hseq
  simp only [strptimeYMD,
    parseYear4_digits a b c d4 ('-' :: e :: f :: '-' :: g :: h :: []) ha hb
      hc hd4] at hp
  rcases parseMonth12_shape e f [g, h] he hf with hm | ⟨m1, hm⟩ | hm
  · simp only [hm] at hp
    rcases parseDay31_shape g h hg hh with hdy | ⟨d1, hdy⟩ | hdy
    · simp only [hdy, List.isEmpty_nil, Bool.true_and] at hp
      by_cases hv : validDate (1000 * dval a + 100 * dval b + 10 * dval c +
          dval d4) (10 * dval e + dval f) (10 * dval g + dval h) = true
      · rw [if_pos hv] at hp
        injection hp with hp
        rw [← hp]
        unfold fmtYMD
        simp only
        rw [pad4_digits a b c d4 ha hb hc hd4, pad2_digits e f he hf,
          pad2_digits g h hg hh]
        rfl
      · rw [if_neg hv] at hp
        exact Option.noConfusion hp
    · simp [hdy] at hp
    · simp only [hdy] at hp
      exact Option.noConfusion hp
  · simp only [hm] at hp
    split at hp
    · rename_i r4 heq
      injection heq with heq1 heq2
      exact absurd heq1 (digit_ne_dash f hf)
    · exact Option.noConfusion hp
  · simp only [hm] at hp
    exact Option.noConfusion hp

theorem dropWhile_eq_self_of_head (p : Char → Bool) (l : List Char)
    (h1 : ∀ c, l.head? = some c → p c = false) : l.dropWhile p = l := by
  cases l with
  | nil => rfl
  | cons x xs => exact dropWhile_cons_false p x xs (h1 x rfl)

theorem pyStripChars_eq_self_of_ends (p : Char → Bool) (l : List Char)
    (h1 : ∀ c, l.head? = some c → p c = false)
    (h2 : ∀ c, l.getLast? = some c → p c = false) :
    pyStripChars p l = l := by
  unfold pyStripChars pyDropTrailing
  rw [dropWhile_eq_self_of_head p l h1,
    dropWhile_eq_self_of_head p l.reverse
      (fun c hc => h2 c (by rw [← List.head?_reverse]; exact hc)),
    List.reverse_reverse]

theorem shape10_no_space (s : List Char) (hs : isShape10 s = true) :
    ∀ c ∈ s, ¬ c = ' ' := by
  obtain ⟨a, b, c, d, e, f, g, h, hseq, ha, hb, hc, hd, he, hf, hg, hh⟩ :=
    shape10_decomp s hs
  subst hseq
  intro x hx
  simp only [List.mem_cons, List.not_mem_nil, or_false] at hx
  rcases hx with hx | hx | hx | hx | hx | hx | hx | hx | hx | hx <;>
    subst hx <;>
    first
      | exact digit_ne_space _ (by assumption)
      | decide

theorem weekRegexpBody_decomp (m : List Char) (h : weekRegexpBody m = true) :
    ∃ s1 s2, m = s1 ++ ' ' :: '-' :: ' ' :: s2 ∧ isShape10 s1 = true ∧
      isShape10 s2 = true := by
  unfold weekRegexpBody at h
  simp only [Bool.and_eq_true] at h
  obtain ⟨⟨h1, h2⟩, h3⟩ := h
  refine ⟨m.take 10, (m.drop 10).drop 3, ?_, h1, h3⟩
  have e2 : (m.drop 10).take 3 = [' ', '-', ' '] := eq_of_beq h2
  calc m = m.take 10 ++ m.drop 10 := (List.take_append_drop 10 m).symm
    _ = m.take 10 ++ ((m.drop 10).take 3 ++ (m.drop 10).drop 3) := by
        conv_rhs => rw [List.take_append_drop]
    _ = m.take 10 ++ ' ' :: '-' :: ' ' :: (m.drop 10).drop 3 := by
        rw [e2]
        rfl

theorem mysqlWeekRegexp_decomp (l : List Char)
    (h : mysqlWeekRegexp l = true) :
    ∃ q s1 s2, (q = ([] : List Char) ∨ q = [apostropheChar]) ∧
      l = q ++ (s1 ++ ' ' :: '-' :: ' ' :: s2) ∧ isShape10 s1 = true ∧
      isShape10 s2 = true := by
  unfold mysqlWeekRegexp at h
  rw [Bool.or_eq_true] at h
  rcases h with h | h
  · cases l with
    | nil => exact absurd h (by decide)
    | cons q0 rest =>
      have h2 : (q0 == apostropheChar) = true ∧ weekRegexpBody rest = true :=
        by simpa using h
      obtain ⟨s1, s2, heq, hs1, hs2⟩ := weekRegexpBody_decomp rest h2.2
      refine ⟨[apostropheChar], s1, s2, Or.inr rfl, ?_, hs1, hs2⟩
      rw [List.singleton_append, ← heq, eq_of_beq h2.1]
  · obtain ⟨s1, s2, heq, hs1, hs2⟩ := weekRegexpBody_decomp l h
    exact ⟨[], s1, s2, Or.inl rfl, by rw [List.nil_append, heq], hs1, hs2⟩

theorem pyCleanWeekName_decomp (q s1 s2 : List Char)
    (hq : q = ([] : List Char) ∨ q = [apostropheChar])
    (hs1 : isShape10 s1 = true) (hs2 : isShape10 s2 = true) :
    pyCleanWeekName (q ++ (s1 ++ ' ' :: '-' :: ' ' :: s2)) =
      s1 ++ ' ' :: '-' :: ' ' :: s2 := by
  obtain ⟨a, b, c, d, e, f, g, h, hseq1, ha, _, _, _, _, _, _, _⟩ :=
    shape10_decomp s1 hs1
  obtain ⟨a2, b2, c2, d2, e2, f2, g2, h2, hseq2, _, _, _, _, _, _, _, hh2⟩ :=
    shape10_decomp s2 hs2
  have hhead : (s1 ++ ' ' :: '-' :: ' ' :: s2).head? = some a := by
    rw [hseq1]
    rfl
  have hlast : (s1 ++ ' ' :: '-' :: ' ' :: s2).getLast? = some h2 := by
    rw [hseq1, hseq2]
    rfl
  have hbody : pyStripChars isPySpace (s1 ++ ' ' :: '-' :: ' ' :: s2) =
      s1 ++ ' ' :: '-' :: ' ' :: s2 := by
    apply pyStripChars_eq_self_of_ends
    · intro x hx
      rw [hhead] at hx
      injection hx with hx
      exact hx ▸ digit_not_space a ha
    · intro x hx
      rw [hlast] at hx
      injection hx with hx
      exact hx ▸ digit_not_space h2 hh2
  have hapos : pyStripChars (fun x => x == apostropheChar)
      (s1 ++ ' ' :: '-' :: ' ' :: s2) = s1 ++ ' ' :: '-' :: ' ' :: s2 := by
    apply pyStripChars_eq_self_of_ends
    · intro x hx
      rw [hhead] at hx
      injection hx with hx
      exact hx ▸ digit_not_apostrophe a ha
    · intro x hx
      rw [hlast] at hx
      injection hx with hx
      exact hx ▸ digit_not_apostrophe h2 hh2
  unfold pyCleanWeekName
  rcases hq with hq | hq
  · subst hq
    rw [List.nil_append, hbody, hapos]
  · subst hq
    rw [List.singleton_append]
    have hsp : pyStripChars isPySpace
        (apostropheChar :: (s1 ++ ' ' :: '-' :: ' ' :: s2)) =
        apostropheChar :: (s1 ++ ' ' :: '-' :: ' ' :: s2) := by
      apply pyStripChars_eq_self_of_ends
      · intro x hx
        injection hx with hx
        exact hx ▸ (by decide)
      · intro x hx
        rw [show (apostropheChar ::
            (s1 ++ ' ' :: '-' :: ' ' :: s2)).getLast? = some h2 from by
          rw [hseq1, hseq2]; rfl] at hx
        injection hx with hx
        exact hx ▸ digit_not_space h2 hh2
    rw [hsp]
    unfold pyStripChars pyDropTrailing
    rw [List.dropWhile_cons, if_pos (by simp)]
    rw [dropWhile_eq_self_of_head (fun x => x == apostropheChar)
      (s1 ++ ' ' :: '-' :: ' ' :: s2) (fun x hx => by
        rw [hhead] at hx
        injection hx with hx
        exact hx ▸ digit_not_apostrophe a ha)]
    rw [dropWhile_eq_self_of_head (fun x => x == apostropheChar)
      (s1 ++ ' ' :: '-' :: ' ' :: s2).reverse (fun x hx => by
        rw [List.head?_reverse, hlast] at hx
        injection hx with hx
        exact hx ▸ digit_not_apostrophe h2 hh2)]
    rw [List.reverse_reverse]

/-- Counterexample to C4 as stated: two week columns may share a start date
(here `2024-01-01` with different end dates), so the catalog is not sorted
*strictly* ascending by start date. -/
theorem _get_week_columns_strict_sort_cex :
    ¬ List.Pairwise (fun a b => pyDateLt a.start_date b.start_date)
      (_get_week_columns
        ["2024-01-01 - 2024-01-07", "2024-01-01 - 2024-01-08"]) := by
  decide

/-- C4 (amended): for every table, the week catalog is sorted ascending
(non-strictly: ties on start date are possible) by start date, and every
parsed start and end date round-trips through the fixed `YYYY-MM-DD`
format back to exactly the text it was parsed from: each catalog entry's
label is literally `fmtYMD start ++ " - " ++ fmtYMD end`. -/
theorem _get_week_columns_sorted_roundtrip (names : List String) :
    List.Sorted weekColLe (_get_week_columns names) ∧
    ∀ w ∈ _get_week_columns names,
      w.label.data =
        fmtYMD w.start_date ++ ' ' :: '-' :: ' ' :: fmtYMD w.end_date := by
  constructor
  · exact List.sorted_insertionSort weekColLe _
  · intro w hw
    have hw2 : w ∈ (names.filter
        (fun n => mysqlWeekRegexp n.data)).filterMap _parse_week_column :=
      (List.perm_insertionSort weekColLe _).mem_iff.mp hw
    rcases List.mem_filterMap.mp hw2 with ⟨n, hn, hpn⟩
    have hre : mysqlWeekRegexp n.data = true := (List.mem_filter.mp hn).2
    obtain ⟨q, s1, s2, hq, hleq, hs1, hs2⟩ := mysqlWeekRegexp_decomp n.data
      hre
    have hclean : pyCleanWeekName n.data =
        s1 ++ ' ' :: '-' :: ' ' :: s2 := by
      rw [hleq]
      exact pyCleanWeekName_decomp q s1 s2 hq hs1 hs2
    have hsplit : splitDash (pyCleanWeekName n.data) = [s1, s2] := by
      rw [hclean, splitDash_no_space_append s1 s2 (shape10_no_space s1 hs1),
        splitDash_no_sep_self s2 (shape10_no_space s2 hs2)]
    simp only [_parse_week_column, hsplit] at hpn
    cases h1 : strptimeYMD s1 with
    | none => simp [h1] at hpn
    | some d1 =>
      cases h2 : strptimeYMD s2 with
      | none => simp [h1, h2] at hpn
      | some d2 =>
        simp only [h1, h2] at hpn
        injection hpn with hpn
        rw [← hpn]
        show pyCleanWeekName n.data = _
        rw [hclean, strptime_shape10_fmt s1 hs1 d1 h1,
          strptime_shape10_fmt s2 hs2 d2 h2]

/-- Witness for C4: a concrete two-week catalog is sorted by `weekColLe`
and its entries' labels are exactly the formatted date ranges. -/
theorem _get_week_columns_sorted_roundtrip_witness :
    List.Sorted weekColLe (_get_week_columns
      ["2024-01-08 - 2024-01-14", "x", "2024-01-01 - 2024-01-07"]) ∧
    ∀ w ∈ _get_week_columns
        ["2024-01-08 - 2024-01-14", "x", "2024-01-01 - 2024-01-07"],
      w.label.data =
        fmtYMD w.start_date ++ ' ' :: '-' :: ' ' :: fmtYMD w.end_date :=
  _get_week_columns_sorted_roundtrip
    ["2024-01-08 - 2024-01-14", "x", "2024-01-01 - 2024-01-07"]
